import Mathlib

/-!
Shallow embedding of `src/mount.py` (vc-mounter), a configuration-driven
front end that builds and runs VeraCrypt mount/dismount command lines.

Modelling conventions:
* An INI config is a list of sections in file order; each section is a
  name together with an ordered list of (option key, value) pairs
  (`configparser` guarantees unique section names and unique keys per
  section; theorems that need this take it as a `Nodup` hypothesis).
* Every `print` site of the program is mirrored by one constructor of
  the event type `Ev`; a run produces the list of events in print order.
* Python exceptions that the program does not catch (IndexError from
  `expected_values[index]`, KeyError from `dict.pop` / config lookup)
  are modelled by `Option`: `none` means the run dies with an uncaught
  exception.  On `none` the events printed up to that point are kept.
* `sys.exit` is modelled in the result values (`RunOutcome`, and the
  error list returned by `config_integrity_check` from which
  `terminate_by_condition` decides the exit).
* File-system bootstrap (`create_path_config`, `check_and_create_config`,
  `read_path_config`) is outside the claims; the model starts from a
  loaded config.
-/

namespace VCM

abbrev Opts := List (String × String)
abbrev Config := List (String × Opts)
abbrev Kw := List (String × String)

/-- One constructor per print site of `mount.py`. -/
inductive Ev where
  | errSectionNotFound (item : String)
  | errMissingOptions (sec : String)
  | acceptedHeader
  | acceptedOption (key : String)
  | errEmptyOption (sec key : String)
  | errUnexpectedValue (sec key : String) (allowed : List String)
  | debugMsg (msg : String)
  | debugBanner (sec : String)
  | debugJoined (line : String)
  | debugRaw (cmd : List String)
  | infoShowHeader
  | showSection (sec : String)
  | shutdown
  | exec (cmd : List String)
deriving DecidableEq

/-- An entry of `ExpectedValues.expected_values`: either a bare Python
type (`list`, `str`) or a tuple, whose members are the string literals
plus possibly the type `str` (the `(str, '')` entry). -/
inductive EV where
  | ty
  | tup (strs : List String) (hasStrType : Bool)
deriving DecidableEq

/-- `Keywords` dataclass as `asdict` produces it (field order kept). -/
def keywords0 : Kw :=
  [("volume", "/v"), ("tryemptypass", "/tryemptypass"), ("keyfiles", "/k"),
   ("driveletter", "/l"), ("nowaitdlg", "/nowaitdlg"), ("savehistory", "/h"),
   ("securedesktop", "/secureDesktop")]

/-- `ExpectedValues.expected_values`. -/
def expected_values : List EV :=
  [EV.ty, EV.tup ["yes", "no"] false, EV.tup [""] true, EV.ty,
   EV.tup ["yes", "no"] false, EV.tup ["yes", "no"] false, EV.tup ["yes", "no"] false]

def veracrypt_cmd : List String := ["veracrypt"]
def standard_args : List String := ["/q", "/b"]
/-- `self.base_command = self.veracrypt + self.standard_args`. -/
def base_command : List String := veracrypt_cmd ++ standard_args
def dismount_arg : String := "/d"
def exclude_sections : List String := ["Path"]
def argparse_keywords : List String := ["all", "show"]
/-- `self.exclude_reserved = self.exclude_sections + self.argparse_keywords`. -/
def exclude_reserved : List String := exclude_sections ++ argparse_keywords

/-- `Manager.ignore_sections`. -/
def ignore_sections (sec : String) : Bool := exclude_reserved.contains sec

/-- Python `str.isspace()` (restricted to the ASCII whitespace the tool
meets in an INI value): nonempty and all characters whitespace. -/
def pyIsSpace (s : String) : Bool := !s.isEmpty && s.toList.all Char.isWhitespace

/-- `Manager.drylog`: prints only when dry-run is active. -/
def drylog (dry : Bool) (e : Ev) : List Ev := if dry then [e] else []

/-- `self.config[sec]` (first section of that name; `none` = KeyError). -/
def lookupSec (cfg : Config) (sec : String) : Option Opts :=
  (cfg.find? (fun p => p.1 == sec)).map Prod.snd

/-- `section[key]` (`none` = KeyError). -/
def lookupOpt (opts : Opts) (key : String) : Option String :=
  (opts.find? (fun p => p.1 == key)).map Prod.snd

/-- `self.config[sec].pop(key)`: remove `key` from section `sec`. -/
def popFromSection (cfg : Config) (sec key : String) : Config :=
  cfg.map (fun e => if e.1 == sec then (e.1, e.2.filter (fun p => p.1 != key)) else e)

/-- `self.keywords.pop('keyfiles')` result (the removal itself). -/
def filterKF (kw : Kw) : Kw := kw.filter (fun p => p.1 != "keyfiles")

/-- `config_integrity_check.check_value`.  Returns the printed events and
`some b` (`b` = the appended error flag), or `none` for the uncaught
IndexError when `index` is outside `expected_values`. -/
def check_value (index : Nat) (_sec _key val : String) : List Ev × Option Bool :=
  match expected_values[index]? with
  | none => ([], none)
  | some EV.ty =>
    if val != "" then ([], some false)
    else ([Ev.errEmptyOption _sec _key], some true)
  | some (EV.tup strs hasStrType) =>
    if strs.contains val || hasStrType then ([], some false)
    else ([Ev.errUnexpectedValue _sec _key strs], some true)

/-- `config_integrity_check.check_keyfile`: on an empty or
whitespace-only `keyfiles` value, pops the key from the shared keyword
table and from the section.  `none` = KeyError from `dict.pop` when
`keyfiles` is no longer in the keyword table. -/
def check_keyfile (dry : Bool) (kw : Kw) (cfg : Config) (sec key val : String) :
    List Ev × Option (Kw × Config) :=
  if key == "keyfiles" then
    if pyIsSpace val || val == "" then
      let evs := drylog dry (Ev.debugMsg "Called config_integrity_check.check_keyfile()")
      if (kw.find? (fun p => p.1 == "keyfiles")).isSome then
        (evs, some (filterKF kw, popFromSection cfg sec "keyfiles"))
      else (evs, none)
    else ([], some (kw, cfg))
  else ([], some (kw, cfg))

/-- The inner loop of the third (value-shape) pass: one section's
options, position-indexed from `i`.  Accumulates the error flags the
source appends to `errors`. -/
def pass3_opts (dry : Bool) (sec : String) :
    Kw → Config → Nat → List (String × String) → List Ev × Option (Kw × Config × List Bool)
  | kw, cfg, _, [] => ([], some (kw, cfg, []))
  | kw, cfg, i, (key, val) :: rest =>
    let r1 := check_value i sec key val
    match r1.2 with
    | none => (r1.1, none)
    | some b =>
      let r2 := check_keyfile dry kw cfg sec key val
      match r2.2 with
      | none => (r1.1 ++ r2.1, none)
      | some (kw', cfg') =>
        let r3 := pass3_opts dry sec kw' cfg' (i + 1) rest
        (r1.1 ++ r2.1 ++ r3.1, r3.2.map (fun t => (t.1, t.2.1, b :: t.2.2)))

/-- The third (value-shape) pass over all sections.  Note the source has
no `ignore_sections` skip here: reserved sections are iterated too. -/
def pass3 (dry : Bool) : Kw → Config → List String → List Ev × Option (Kw × Config × List Bool)
  | kw, cfg, [] => ([], some (kw, cfg, []))
  | kw, cfg, sec :: rest =>
    let opts := (lookupSec cfg sec).getD []
    let r1 := pass3_opts dry sec kw cfg 0 opts
    match r1.2 with
    | none => (r1.1, none)
    | some (kw', cfg', bs) =>
      let r2 := pass3 dry kw' cfg' rest
      (r1.1 ++ r2.1, r2.2.map (fun t => (t.1, t.2.1, bs ++ t.2.2)))

/-- First pass: requested container names must exist among the sections
(reserved names skipped). -/
def existence_pass (sections : List String) : List String → List Bool × List Ev
  | [] => ([], [])
  | item :: rest =>
    let t := existence_pass sections rest
    if ignore_sections item then t
    else if sections.contains item then t
    else (true :: t.1, Ev.errSectionNotFound item :: t.2)

/-- Second pass: every non-reserved section's option count must equal
the expected key count. -/
def completeness_pass (expectedLen : Nat) (cfg : Config) : List String → List Bool × List Ev
  | [] => ([], [])
  | sec :: rest =>
    let t := completeness_pass expectedLen cfg rest
    if ignore_sections sec then t
    else
      let options := (lookupSec cfg sec).getD []
      if expectedLen != options.length then
        (true :: t.1, Ev.errMissingOptions sec :: t.2)
      else t

/-- `Manager.terminate_by_condition`: events printed, and whether the
program exits with status 1. -/
def terminate_by_condition (dry : Bool) (is_err : Bool) : List Ev × Bool :=
  (drylog dry (Ev.debugMsg "Called terminate_by_condition()") ++
    (if is_err then drylog dry (Ev.debugMsg "is_err = True") ++ [Ev.shutdown] else []),
   is_err)

/-- The mutable `Manager` state the validator touches: the shared
keyword table and the loaded config. -/
structure St where
  keywords : Kw
  config : Config
deriving DecidableEq

/-- `Manager.config_integrity_check`.  Returns all printed events and,
when no uncaught exception occurs, the mutated state together with the
accumulated `errors` list (`terminate_by_condition` exits with status 1
iff that list contains `true`; its events are included). -/
def config_integrity_check (dry : Bool) (container : List String) (st : St) :
    List Ev × Option (St × List Bool) :=
  let sections := st.config.map Prod.fst
  let p1 := existence_pass sections container
  let expected_keys := st.keywords.map Prod.fst
  let p2 := completeness_pass expected_keys.length st.config sections
  let acc : List Ev :=
    if p2.1.isEmpty then []
    else Ev.acceptedHeader :: expected_keys.map Ev.acceptedOption
  let r3 := pass3 dry st.keywords st.config sections
  match r3.2 with
  | none => (p1.2 ++ p2.2 ++ acc ++ r3.1, none)
  | some (kw', cfg', bs) =>
    let errors := p1.1 ++ p2.1 ++ bs
    let t := terminate_by_condition dry (errors.contains true)
    (p1.2 ++ p2.2 ++ acc ++ r3.1 ++ t.1, some (⟨kw', cfg'⟩, errors))

/-- The loop of `Manager.get_config_values`: one value per keyword key,
in keyword-table order (`none` = KeyError on a missing option). -/
def collectValues (opts : Opts) : Kw → Option (List String)
  | [] => some []
  | p :: rest =>
    match lookupOpt opts p.1 with
    | none => none
    | some v => (collectValues opts rest).map (fun vs => v :: vs)

/-- `Manager.get_config_values` (`none` = KeyError: missing section or
missing option). -/
def get_config_values (kw : Kw) (cfg : Config) (sec : String) : Option (List String) :=
  (lookupSec cfg sec).bind (fun opts => collectValues opts kw)

/-- The command the mount loop assembles: base command, then for each
keyword-table entry its flag immediately followed by the positional
value. -/
def mount_command (kw : Kw) (vals : List String) : List String :=
  base_command ++ (kw.zip vals).flatMap (fun p => [p.1.2, p.2])

def joinSpace (cmd : List String) : String := String.intercalate " " cmd

/-- `Manager.mount_volume`.  Faithful to the source order: config values
are fetched (possible KeyError) before the reserved-section guard. -/
def mount_volume (dry : Bool) (kw : Kw) (cfg : Config) (sec : String) :
    List Ev × Option Unit :=
  match get_config_values kw cfg sec with
  | none => ([], none)
  | some vals =>
    if exclude_reserved.contains sec then ([], some ())
    else
      let command := mount_command kw vals
      (drylog dry (Ev.debugBanner sec) ++
       drylog dry (Ev.debugJoined (joinSpace command ++ "\n")) ++
       drylog dry (Ev.debugRaw command) ++
       (if dry then [] else [Ev.exec command]), some ())

/-- `Manager.dismount_volume`: reserved guard first, then the dismount
command from the section's `driveletter` value. -/
def dismount_volume (dry : Bool) (cfg : Config) (sec : String) : List Ev × Option Unit :=
  if exclude_reserved.contains sec then ([], some ())
  else
    match (lookupSec cfg sec).bind (fun o => lookupOpt o "driveletter") with
    | none => ([], none)
    | some dl =>
      let command := base_command ++ [dismount_arg, dl]
      (drylog dry (Ev.debugBanner sec) ++
       drylog dry (Ev.debugJoined (joinSpace command)) ++
       drylog dry (Ev.debugRaw command) ++
       (if dry then [] else [Ev.exec command]), some ())

/-- `Manager.dismount_or_mount`. -/
def dismount_or_mount (dry dm : Bool) (kw : Kw) (cfg : Config) (sec : String) :
    List Ev × Option Unit :=
  if dm then dismount_volume dry cfg sec else mount_volume dry kw cfg sec

/-- One `dismount_or_mount` per target, stopping at an uncaught
exception. -/
def runTargets (dry dm : Bool) (kw : Kw) (cfg : Config) : List String → List Ev × Option Unit
  | [] => ([], some ())
  | sec :: rest =>
    let r1 := dismount_or_mount dry dm kw cfg sec
    match r1.2 with
    | none => (r1.1, none)
    | some _ =>
      let r2 := runTargets dry dm kw cfg rest
      (r1.1 ++ r2.1, r2.2)

inductive RunOutcome where
  | crashedValidation
  | exitedError
  | exitedShow
  | crashedDispatch
  | completed
deriving DecidableEq

/-- `Manager.main`: validation (may exit 1 or die), then
`show_all_containers` (exit 0 when the first target is `show`), then the
dispatch state machine. -/
def mainRun (dry dm : Bool) (container : List String) (st : St) : List Ev × RunOutcome :=
  let c := config_integrity_check dry container st
  match c.2 with
  | none => (c.1, RunOutcome.crashedValidation)
  | some (st', errs) =>
    if errs.contains true then (c.1, RunOutcome.exitedError)
    else if container.headD "" == "show" then
      (c.1 ++ Ev.infoShowHeader ::
        ((st'.config.map Prod.fst).filter (fun s => !ignore_sections s)).map Ev.showSection,
       RunOutcome.exitedShow)
    else
      let r :=
        if container.length > 1 then
          runTargets dry dm st'.keywords st'.config container
        else if container.headD "" == "all" then
          runTargets dry dm st'.keywords st'.config (st'.config.map Prod.fst)
        else
          runTargets dry dm st'.keywords st'.config [container.headD ""]
      (c.1 ++ r.1, if r.2.isSome then RunOutcome.completed else RunOutcome.crashedDispatch)

/-- Does a section hold an empty or whitespace-only `keyfiles` value? -/
def hasEmptyKF (opts : Opts) : Bool :=
  opts.any (fun p => p.1 == "keyfiles" && (pyIsSpace p.2 || p.2 == ""))

/-- Classifier: events the value-shape pass can print. -/
def isPass3Ev : Ev → Bool
  | Ev.errEmptyOption _ _ => true
  | Ev.errUnexpectedValue _ _ _ => true
  | Ev.debugMsg _ => true
  | _ => false

/-- Classifier: events the existence pass can print. -/
def isPass1Ev : Ev → Bool
  | Ev.errSectionNotFound _ => true
  | _ => false

/-- Classifier: events the completeness pass can print. -/
def isPass2Ev : Ev → Bool
  | Ev.errMissingOptions _ => true
  | _ => false

/-- Classifier: events of the accepted-options guidance block. -/
def isAccEv : Ev → Bool
  | Ev.acceptedHeader => true
  | Ev.acceptedOption _ => true
  | _ => false

/-- Classifier: events `terminate_by_condition` can print. -/
def isTermEv : Ev → Bool
  | Ev.shutdown => true
  | Ev.debugMsg _ => true
  | _ => false

/-- A fully valid canonical profile used by the concrete runs below. -/
def goodOpts : Opts :=
  [("volume", "vol1"), ("tryemptypass", "no"), ("keyfiles", "kf1"), ("driveletter", "X"),
   ("nowaitdlg", "yes"), ("savehistory", "no"), ("securedesktop", "no")]

/-- The mount command the program builds for `goodOpts`. -/
def goodCmd : List String :=
  ["veracrypt", "/q", "/b", "/v", "vol1", "/tryemptypass", "no", "/k", "kf1", "/l", "X",
   "/nowaitdlg", "yes", "/h", "no", "/secureDesktop", "no"]

def cfgC4 : Config := [("Cont1", goodOpts)]
def stC1 : St := ⟨keywords0, [("A", goodOpts ++ [("extra", "x")])]⟩
def stC2 : St :=
  ⟨keywords0,
   [("A", [("keyfiles", ""), ("volume", "v"), ("tryemptypass", "no"), ("driveletter", "X"),
     ("nowaitdlg", "yes"), ("savehistory", "no"), ("securedesktop", "no")])]⟩
def stC5 : St := ⟨keywords0, [("Path", [("path", "")]), ("Cont1", goodOpts)]⟩
def kfEmptyOpts : Opts :=
  [("volume", "vol2"), ("tryemptypass", "no"), ("keyfiles", ""), ("driveletter", "Y"),
   ("nowaitdlg", "yes"), ("savehistory", "no"), ("securedesktop", "no")]
def stC2w : St := ⟨keywords0, [("Cont2", kfEmptyOpts)]⟩
def stC2wAfter : St :=
  ⟨filterKF keywords0, [("Cont2", kfEmptyOpts.filter (fun p => p.1 != "keyfiles"))]⟩
def stC9w : St := ⟨keywords0, [("Cont1", goodOpts), ("Cont2", kfEmptyOpts)]⟩
def stC9wAfter : St :=
  ⟨filterKF keywords0,
   [("Cont1", goodOpts), ("Cont2", kfEmptyOpts.filter (fun p => p.1 != "keyfiles"))]⟩
def optsC6 : Opts :=
  [("volume", "v"), ("tryemptypass", "no"), ("keyfiles", "k"), ("driveletter", "X"),
   ("nowaitdlg", "yes"), ("savehistory", "no"), ("bogus", "no")]
def stC6 : St := ⟨keywords0, [("A", optsC6)]⟩
def stC7 : St := ⟨keywords0, [("Cont1", goodOpts)]⟩

lemma base_command_eq : base_command = ["veracrypt", "/q", "/b"] := rfl

lemma collectValues_eq (opts : Opts) (f : String × String → String) :
    ∀ kw : Kw, (∀ p ∈ kw, lookupOpt opts p.1 = some (f p)) →
      collectValues opts kw = some (kw.map f)
  | [], _ => rfl
  | p :: rest, h => by
    have hp := h p (List.mem_cons_self p rest)
    have hr := collectValues_eq opts f rest (fun q hq => h q (List.mem_cons_of_mem _ hq))
    simp [collectValues, hp, hr]

lemma zip_map_flatMap (f : String × String → String) (g : (String × String) × String → List String) :
    ∀ kw : Kw, (kw.zip (kw.map f)).flatMap g = kw.flatMap (fun p => g (p, f p))
  | [] => rfl
  | p :: rest => by
    simp only [List.map_cons, List.zip_cons_cons, List.flatMap_cons, zip_map_flatMap f g rest]

lemma mount_command_map (f : String × String → String) (kw : Kw) :
    mount_command kw (kw.map f) = base_command ++ kw.flatMap (fun p => [p.2, f p]) := by
  simp only [mount_command, zip_map_flatMap]

lemma flatMap_pairs_length : ∀ kw : Kw, ∀ g : String × String → String,
    (kw.flatMap (fun p => [p.2, g p])).length = 2 * kw.length
  | [], _ => rfl
  | p :: rest, g => by
    simp only [List.flatMap_cons, List.length_append, List.length_cons, List.length_nil,
      flatMap_pairs_length rest g]
    ring

lemma contains_false_iff (l : List String) (a : String) : l.contains a = false ↔ a ∉ l := by
  rw [← Bool.not_eq_true, not_iff_not]
  exact List.elem_iff

lemma lookupSec_cons_self (n : String) (o : Opts) (rest : Config) :
    lookupSec ((n, o) :: rest) n = some o := by
  simp [lookupSec, List.find?_cons]

lemma lookupSec_cons_ne (n s : String) (o : Opts) (rest : Config) (h : ¬ n = s) :
    lookupSec ((n, o) :: rest) s = lookupSec rest s := by
  simp [lookupSec, List.find?_cons, h]

lemma popFromSection_cons (n : String) (o : Opts) (rest : Config) (sec key : String) :
    popFromSection ((n, o) :: rest) sec key =
      (if n = sec then (n, o.filter (fun p => p.1 != key)) else (n, o)) ::
        popFromSection rest sec key := by
  simp only [popFromSection, List.map_cons]
  by_cases h : n = sec <;> simp [h]

lemma popFromSection_map_fst (cfg : Config) (sec key : String) :
    (popFromSection cfg sec key).map Prod.fst = cfg.map Prod.fst := by
  induction cfg with
  | nil => rfl
  | cons e rest ih =>
    rcases e with ⟨n, o⟩
    rw [popFromSection_cons]
    by_cases h : n = sec
    · rw [if_pos h]
      simp only [List.map_cons, ih]
    · rw [if_neg h]
      simp only [List.map_cons, ih]

lemma lookupSec_popFromSection (cfg : Config) (sec key s : String) :
    lookupSec (popFromSection cfg sec key) s =
      if s = sec then (lookupSec cfg sec).map (fun o => o.filter (fun p => p.1 != key))
      else lookupSec cfg s := by
  induction cfg with
  | nil =>
    by_cases h : s = sec <;> simp [lookupSec, popFromSection, h]
  | cons e rest ih =>
    rcases e with ⟨n, o⟩
    rw [popFromSection_cons]
    by_cases hn : n = sec
    · subst hn
      rw [if_pos rfl]
      by_cases hs : s = n
      · subst hs
        rw [if_pos rfl, lookupSec_cons_self, lookupSec_cons_self]
        rfl
      · rw [if_neg hs, lookupSec_cons_ne _ _ _ _ (fun h2 => hs h2.symm),
          lookupSec_cons_ne _ _ _ _ (fun h2 => hs h2.symm), ih, if_neg hs]
    · rw [if_neg hn]
      by_cases hs : s = n
      · subst hs
        rw [lookupSec_cons_self, if_neg hn, lookupSec_cons_self]
      · rw [lookupSec_cons_ne _ _ _ _ (fun h2 => hs h2.symm), ih]
        by_cases hsec : s = sec
        · rw [if_pos hsec, if_pos hsec, lookupSec_cons_ne _ _ _ _ hn]
        · rw [if_neg hsec, if_neg hsec, lookupSec_cons_ne _ _ _ _ (fun h2 => hs h2.symm)]

lemma mem_lookupSec (cfg : Config) (sec : String) (opts : Opts)
    (hnd : (cfg.map Prod.fst).Nodup) (hmem : (sec, opts) ∈ cfg) :
    lookupSec cfg sec = some opts := by
  induction cfg with
  | nil => cases hmem
  | cons e rest ih =>
    rcases e with ⟨n, o⟩
    rcases List.mem_cons.mp hmem with h | h
    · cases h
      exact lookupSec_cons_self sec opts rest
    · rw [List.map_cons] at hnd
      have hnd2 := List.nodup_cons.mp hnd
      have hne : ¬ n = sec := by
        intro hcontra
        exact hnd2.1 (hcontra ▸ List.mem_map.mpr ⟨(sec, opts), h, rfl⟩)
      rw [lookupSec_cons_ne _ _ _ _ hne]
      exact ih hnd2.2 h

lemma exists_lookupSec_of_mem_fst (cfg : Config) (sec : String)
    (h : sec ∈ cfg.map Prod.fst) : ∃ opts, lookupSec cfg sec = some opts := by
  induction cfg with
  | nil => cases h
  | cons e rest ih =>
    rcases e with ⟨n, o⟩
    by_cases hn : n = sec
    · exact ⟨o, hn ▸ lookupSec_cons_self n o rest⟩
    · rw [lookupSec_cons_ne _ _ _ _ hn]
      apply ih
      rw [List.map_cons] at h
      rcases List.mem_cons.mp h with h1 | h1
      · exact absurd h1.symm hn
      · exact h1

lemma filterKF_fst_not_mem (kw : Kw) : "keyfiles" ∉ (filterKF kw).map Prod.fst := by
  intro h
  rcases List.mem_map.mp h with ⟨p, hp, hfst⟩
  have hpred := List.of_mem_filter hp
  rw [hfst] at hpred
  exact absurd rfl (bne_iff_ne.mp hpred)

lemma filterKF_contains_false (kw : Kw) :
    ((filterKF kw).map Prod.fst).contains "keyfiles" = false :=
  (contains_false_iff _ _).mpr (filterKF_fst_not_mem kw)

lemma filterKF_idem (kw : Kw) : filterKF (filterKF kw) = filterKF kw := by
  simp only [filterKF, List.filter_filter, Bool.and_self]

lemma kwHasKF (kw : Kw) :
    (kw.find? (fun p => p.1 == "keyfiles")).isSome = (kw.map Prod.fst).contains "keyfiles" := by
  induction kw with
  | nil => rfl
  | cons p rest ih =>
    by_cases h : p.1 = "keyfiles"
    · simp [List.find?_cons, h, List.contains_cons]
    · simp [List.find?_cons, h, List.contains_cons, ih, Ne.symm h]

lemma check_value_isSome (i : Nat) (s k v : String) (h : i < 7) :
    ∃ evs b, check_value i s k v = (evs, some b) := by
  have hget : expected_values[i]? = some expected_values[i] :=
    List.getElem?_eq_getElem (show i < expected_values.length from h)
  rcases hEV : expected_values[i] with _ | ⟨strs, hst⟩
  · by_cases hv : (v != "") = true
    · exact ⟨[], false, by
        simp only [check_value, hget, hEV]
        rw [if_pos hv]⟩
    · exact ⟨[Ev.errEmptyOption s k], true, by
        simp only [check_value, hget, hEV]
        rw [if_neg hv]⟩
  · by_cases hv : (strs.contains v || hst) = true
    · exact ⟨[], false, by
        simp only [check_value, hget, hEV]
        rw [if_pos hv]⟩
    · exact ⟨[Ev.errUnexpectedValue s k strs], true, by
        simp only [check_value, hget, hEV]
        rw [if_neg hv]⟩

lemma check_value_oob (i : Nat) (s k v : String) (h : 7 ≤ i) :
    check_value i s k v = ([], none) := by
  have hget : expected_values[i]? = none :=
    List.getElem?_eq_none (show expected_values.length ≤ i from h)
  simp [check_value, hget]

lemma check_keyfile_other (dry : Bool) (kw : Kw) (cfg : Config) (sec key val : String)
    (h : ¬ key = "keyfiles") :
    check_keyfile dry kw cfg sec key val = ([], some (kw, cfg)) := by
  simp [check_keyfile, h]

lemma check_keyfile_nonempty (dry : Bool) (kw : Kw) (cfg : Config) (sec val : String)
    (h : (pyIsSpace val || val == "") = false) :
    check_keyfile dry kw cfg sec "keyfiles" val = ([], some (kw, cfg)) := by
  simp [check_keyfile, h]

lemma check_keyfile_pop (dry : Bool) (kw : Kw) (cfg : Config) (sec val : String)
    (he : (pyIsSpace val || val == "") = true)
    (hin : (kw.map Prod.fst).contains "keyfiles" = true) :
    check_keyfile dry kw cfg sec "keyfiles" val =
      (drylog dry (Ev.debugMsg "Called config_integrity_check.check_keyfile()"),
       some (filterKF kw, popFromSection cfg sec "keyfiles")) := by
  have hfind : (kw.find? (fun p => p.1 == "keyfiles")).isSome = true := by
    rw [kwHasKF]
    exact hin
  simp [check_keyfile, he, hfind]

lemma check_keyfile_crash (dry : Bool) (kw : Kw) (cfg : Config) (sec val : String)
    (he : (pyIsSpace val || val == "") = true)
    (hout : (kw.map Prod.fst).contains "keyfiles" = false) :
    check_keyfile dry kw cfg sec "keyfiles" val =
      (drylog dry (Ev.debugMsg "Called config_integrity_check.check_keyfile()"), none) := by
  have hfind : (kw.find? (fun p => p.1 == "keyfiles")).isSome = false := by
    rw [kwHasKF]
    exact hout
  simp [check_keyfile, he, hfind]

lemma hasEmptyKF_cons (k v : String) (rest : Opts) :
    hasEmptyKF ((k, v) :: rest) =
      ((k == "keyfiles" && (pyIsSpace v || v == "")) || hasEmptyKF rest) := rfl

lemma hasEmptyKF_eq_false_of_not_mem (opts : Opts)
    (h : "keyfiles" ∉ opts.map Prod.fst) : hasEmptyKF opts = false := by
  rw [Bool.eq_false_iff]
  intro hcontra
  rcases List.any_eq_true.mp hcontra with ⟨p, hp, hpred⟩
  have h1 := ((Bool.and_eq_true _ _).mp hpred).1
  exact h (List.mem_map.mpr ⟨p, hp, beq_iff_eq.mp h1⟩)

lemma pass3_opts_nil (dry : Bool) (sec : String) (kw : Kw) (cfg : Config) (i : Nat) :
    pass3_opts dry sec kw cfg i [] = ([], some (kw, cfg, [])) := rfl

lemma pass3_opts_cons_cv_none (dry : Bool) (sec : String) (kw : Kw) (cfg : Config) (i : Nat)
    (key val : String) (rest : List (String × String))
    (h : (check_value i sec key val).2 = none) :
    pass3_opts dry sec kw cfg i ((key, val) :: rest) = ((check_value i sec key val).1, none) := by
  simp only [pass3_opts]
  split
  · rfl
  · rename_i b heq
    rw [h] at heq
    cases heq

lemma pass3_opts_cons_kf_none (dry : Bool) (sec : String) (kw : Kw) (cfg : Config) (i : Nat)
    (key val : String) (rest : List (String × String)) (b : Bool)
    (hcv : (check_value i sec key val).2 = some b)
    (hkf : (check_keyfile dry kw cfg sec key val).2 = none) :
    pass3_opts dry sec kw cfg i ((key, val) :: rest) =
      ((check_value i sec key val).1 ++ (check_keyfile dry kw cfg sec key val).1, none) := by
  simp only [pass3_opts]
  split
  · rename_i heq
    rw [hcv] at heq
    cases heq
  · rename_i b2 heq
    rw [hcv] at heq
    cases heq
    split
    · rfl
    · rename_i kc heq2
      rw [hkf] at heq2
      cases heq2

lemma pass3_opts_cons_step (dry : Bool) (sec : String) (kw : Kw) (cfg : Config) (i : Nat)
    (key val : String) (rest : List (String × String)) (b : Bool) (kw2 : Kw) (cfg2 : Config)
    (hcv : (check_value i sec key val).2 = some b)
    (hkf : (check_keyfile dry kw cfg sec key val).2 = some (kw2, cfg2)) :
    pass3_opts dry sec kw cfg i ((key, val) :: rest) =
      ((check_value i sec key val).1 ++ (check_keyfile dry kw cfg sec key val).1 ++
        (pass3_opts dry sec kw2 cfg2 (i + 1) rest).1,
       (pass3_opts dry sec kw2 cfg2 (i + 1) rest).2.map
         (fun t => (t.1, t.2.1, b :: t.2.2))) := by
  simp only [pass3_opts]
  split
  · rename_i heq
    rw [hcv] at heq
    cases heq
  · rename_i b2 heq
    rw [hcv] at heq
    cases heq
    split
    · rename_i heq2
      rw [hkf] at heq2
      cases heq2
    · rename_i kw3 cfg3 heq2
      rw [hkf] at heq2
      cases heq2
      rfl

lemma pass3_nil (dry : Bool) (kw : Kw) (cfg : Config) :
    pass3 dry kw cfg [] = ([], some (kw, cfg, [])) := rfl

lemma pass3_cons_none (dry : Bool) (kw : Kw) (cfg : Config) (sec : String) (rest : List String)
    (h : (pass3_opts dry sec kw cfg 0 ((lookupSec cfg sec).getD [])).2 = none) :
    pass3 dry kw cfg (sec :: rest) =
      ((pass3_opts dry sec kw cfg 0 ((lookupSec cfg sec).getD [])).1, none) := by
  simp only [pass3]
  split
  · rfl
  · rename_i kw2 cfg2 bs2 heq
    rw [h] at heq
    cases heq

lemma pass3_cons_step (dry : Bool) (kw : Kw) (cfg : Config) (sec : String) (rest : List String)
    (kw2 : Kw) (cfg2 : Config) (bs2 : List Bool)
    (h : (pass3_opts dry sec kw cfg 0 ((lookupSec cfg sec).getD [])).2 = some (kw2, cfg2, bs2)) :
    pass3 dry kw cfg (sec :: rest) =
      ((pass3_opts dry sec kw cfg 0 ((lookupSec cfg sec).getD [])).1 ++
        (pass3 dry kw2 cfg2 rest).1,
       (pass3 dry kw2 cfg2 rest).2.map (fun t => (t.1, t.2.1, bs2 ++ t.2.2))) := by
  simp only [pass3]
  split
  · rename_i heq
    rw [h] at heq
    cases heq
  · rename_i kw3 cfg3 bs3 heq
    rw [h] at heq
    cases heq
    rfl

lemma mem_drylog (dry : Bool) (ev e : Ev) (h : e ∈ drylog dry ev) : e = ev := by
  unfold drylog at h
  split at h
  · exact List.mem_singleton.mp h
  · cases h

lemma not_mem_of_classifier {p : Ev → Bool} {l : List Ev} (hall : ∀ e ∈ l, p e = true)
    {x : Ev} (hx : p x = false) : x ∉ l := by
  intro hmem
  rw [hall x hmem] at hx
  cases hx

lemma count_zero_of_classifier {p : Ev → Bool} {l : List Ev} (hall : ∀ e ∈ l, p e = true)
    {x : Ev} (hx : p x = false) : List.count x l = 0 :=
  List.count_eq_zero.mpr (not_mem_of_classifier hall hx)

lemma check_value_events (i : Nat) (s k v : String) :
    ∀ e ∈ (check_value i s k v).1, isPass3Ev e = true := by
  intro e he
  unfold check_value at he
  split at he
  · cases he
  · split at he
    · cases he
    · rw [List.mem_singleton.mp he]
      rfl
  · split at he
    · cases he
    · rw [List.mem_singleton.mp he]
      rfl

lemma check_keyfile_events (dry : Bool) (kw : Kw) (cfg : Config) (sec key val : String) :
    ∀ e ∈ (check_keyfile dry kw cfg sec key val).1, isPass3Ev e = true := by
  intro e he
  unfold check_keyfile at he
  split at he
  · split at he
    · split at he
      · rw [mem_drylog _ _ _ he]
        rfl
      · rw [mem_drylog _ _ _ he]
        rfl
    · cases he
  · cases he

lemma pass3_opts_events (dry : Bool) (sec : String) (opts : List (String × String)) :
    ∀ (kw : Kw) (cfg : Config) (i : Nat), ∀ e ∈ (pass3_opts dry sec kw cfg i opts).1,
      isPass3Ev e = true := by
  induction opts with
  | nil =>
    intro kw cfg i e he
    rw [pass3_opts_nil] at he
    cases he
  | cons p rest ih =>
    intro kw cfg i e he
    rcases p with ⟨key, val⟩
    rcases hcv : (check_value i sec key val).2 with _ | b
    · rw [pass3_opts_cons_cv_none _ _ _ _ _ _ _ _ hcv] at he
      exact check_value_events i sec key val e he
    · rcases hck : (check_keyfile dry kw cfg sec key val).2 with _ | ⟨kw2, cfg2⟩
      · rw [pass3_opts_cons_kf_none _ _ _ _ _ _ _ _ b hcv hck] at he
        rcases List.mem_append.mp he with h1 | h1
        · exact check_value_events i sec key val e h1
        · exact check_keyfile_events dry kw cfg sec key val e h1
      · rw [pass3_opts_cons_step _ _ _ _ _ _ _ _ b kw2 cfg2 hcv hck] at he
        rcases List.mem_append.mp he with h1 | h1
        · rcases List.mem_append.mp h1 with h2 | h2
          · exact check_value_events i sec key val e h2
          · exact check_keyfile_events dry kw cfg sec key val e h2
        · exact ih kw2 cfg2 (i + 1) e h1

lemma pass3_events (dry : Bool) (secs : List String) :
    ∀ (kw : Kw) (cfg : Config), ∀ e ∈ (pass3 dry kw cfg secs).1, isPass3Ev e = true := by
  induction secs with
  | nil =>
    intro kw cfg e he
    rw [pass3_nil] at he
    cases he
  | cons sec rest ih =>
    intro kw cfg e he
    rcases hr : (pass3_opts dry sec kw cfg 0 ((lookupSec cfg sec).getD [])).2 with _ | ⟨kw2, cfg2, bs2⟩
    · rw [pass3_cons_none _ _ _ _ _ hr] at he
      exact pass3_opts_events dry sec _ kw cfg 0 e he
    · rw [pass3_cons_step _ _ _ _ _ _ _ _ hr] at he
      rcases List.mem_append.mp he with h1 | h1
      · exact pass3_opts_events dry sec _ kw cfg 0 e h1
      · exact ih kw2 cfg2 e h1

lemma pass3_opts_nokf (dry : Bool) (sec : String) (opts : List (String × String)) :
    ∀ (kw : Kw) (cfg : Config) (i : Nat) (kw1 : Kw) (cfg1 : Config) (bs : List Bool),
      (kw.map Prod.fst).contains "keyfiles" = false →
      (pass3_opts dry sec kw cfg i opts).2 = some (kw1, cfg1, bs) →
      kw1 = kw ∧ cfg1 = cfg ∧ hasEmptyKF opts = false := by
  induction opts with
  | nil =>
    intro kw cfg i kw1 cfg1 bs _ hrun
    rw [pass3_opts_nil] at hrun
    simp only [Option.some.injEq, Prod.mk.injEq] at hrun
    exact ⟨hrun.1.symm, hrun.2.1.symm, rfl⟩
  | cons p rest ih =>
    intro kw cfg i kw1 cfg1 bs hkf hrun
    rcases p with ⟨key, val⟩
    rcases hcv : (check_value i sec key val).2 with _ | b
    · rw [pass3_opts_cons_cv_none _ _ _ _ _ _ _ _ hcv] at hrun
      cases hrun
    · by_cases hkey : key = "keyfiles"
      · subst hkey
        by_cases hemp : (pyIsSpace val || val == "") = true
        · have hck : (check_keyfile dry kw cfg sec "keyfiles" val).2 = none := by
            rw [check_keyfile_crash dry kw cfg sec val hemp hkf]
          rw [pass3_opts_cons_kf_none _ _ _ _ _ _ _ _ b hcv hck] at hrun
          cases hrun
        · have hemp2 : (pyIsSpace val || val == "") = false := Bool.eq_false_iff.mpr hemp
          have hck : (check_keyfile dry kw cfg sec "keyfiles" val).2 = some (kw, cfg) := by
            rw [check_keyfile_nonempty dry kw cfg sec val hemp2]
          rw [pass3_opts_cons_step _ _ _ _ _ _ _ _ b kw cfg hcv hck] at hrun
          simp only [Option.map_eq_some'] at hrun
          rcases hrun with ⟨t, ht, hteq⟩
          rcases t with ⟨kwt, cfgt, bst⟩
          cases hteq
          have hres := ih kw cfg (i + 1) kwt cfgt bst hkf ht
          refine ⟨hres.1, hres.2.1, ?_⟩
          rw [hasEmptyKF_cons, hres.2.2, hemp2]
          rfl
      · have hck : (check_keyfile dry kw cfg sec key val).2 = some (kw, cfg) := by
          rw [check_keyfile_other dry kw cfg sec key val hkey]
        rw [pass3_opts_cons_step _ _ _ _ _ _ _ _ b kw cfg hcv hck] at hrun
        simp only [Option.map_eq_some'] at hrun
        rcases hrun with ⟨t, ht, hteq⟩
        rcases t with ⟨kwt, cfgt, bst⟩
        cases hteq
        have hres := ih kw cfg (i + 1) kwt cfgt bst hkf ht
        refine ⟨hres.1, hres.2.1, ?_⟩
        rw [hasEmptyKF_cons, hres.2.2]
        simp [hkey]

lemma pass3_opts_state (dry : Bool) (sec : String) (opts : List (String × String)) :
    ∀ (kw : Kw) (cfg : Config) (i : Nat) (kw1 : Kw) (cfg1 : Config) (bs : List Bool),
      (pass3_opts dry sec kw cfg i opts).2 = some (kw1, cfg1, bs) →
      (hasEmptyKF opts = true →
        kw1 = filterKF kw ∧ cfg1 = popFromSection cfg sec "keyfiles") ∧
      (hasEmptyKF opts = false → kw1 = kw ∧ cfg1 = cfg) := by
  induction opts with
  | nil =>
    intro kw cfg i kw1 cfg1 bs hrun
    rw [pass3_opts_nil] at hrun
    simp only [Option.some.injEq, Prod.mk.injEq] at hrun
    constructor
    · intro h
      cases h
    · intro _
      exact ⟨hrun.1.symm, hrun.2.1.symm⟩
  | cons p rest ih =>
    intro kw cfg i kw1 cfg1 bs hrun
    rcases p with ⟨key, val⟩
    rcases hcv : (check_value i sec key val).2 with _ | b
    · rw [pass3_opts_cons_cv_none _ _ _ _ _ _ _ _ hcv] at hrun
      cases hrun
    · by_cases hkey : key = "keyfiles"
      · subst hkey
        by_cases hemp : (pyIsSpace val || val == "") = true
        · by_cases hin : (kw.map Prod.fst).contains "keyfiles" = true
          · have hck : (check_keyfile dry kw cfg sec "keyfiles" val).2 =
                some (filterKF kw, popFromSection cfg sec "keyfiles") := by
              rw [check_keyfile_pop dry kw cfg sec val hemp hin]
            rw [pass3_opts_cons_step _ _ _ _ _ _ _ _ b _ _ hcv hck] at hrun
            simp only [Option.map_eq_some'] at hrun
            rcases hrun with ⟨t, ht, hteq⟩
            rcases t with ⟨kwt, cfgt, bst⟩
            cases hteq
            have hres := pass3_opts_nokf dry sec rest (filterKF kw)
              (popFromSection cfg sec "keyfiles") (i + 1) kwt cfgt bst
              (filterKF_contains_false kw) ht
            constructor
            · intro _
              exact ⟨hres.1, hres.2.1⟩
            · intro h
              rw [hasEmptyKF_cons, hemp] at h
              simp at h
          · have hin2 : (kw.map Prod.fst).contains "keyfiles" = false :=
              Bool.eq_false_iff.mpr hin
            have hck : (check_keyfile dry kw cfg sec "keyfiles" val).2 = none := by
              rw [check_keyfile_crash dry kw cfg sec val hemp hin2]
            rw [pass3_opts_cons_kf_none _ _ _ _ _ _ _ _ b hcv hck] at hrun
            cases hrun
        · have hemp2 : (pyIsSpace val || val == "") = false := Bool.eq_false_iff.mpr hemp
          have hck : (check_keyfile dry kw cfg sec "keyfiles" val).2 = some (kw, cfg) := by
            rw [check_keyfile_nonempty dry kw cfg sec val hemp2]
          rw [pass3_opts_cons_step _ _ _ _ _ _ _ _ b kw cfg hcv hck] at hrun
          simp only [Option.map_eq_some'] at hrun
          rcases hrun with ⟨t, ht, hteq⟩
          rcases t with ⟨kwt, cfgt, bst⟩
          cases hteq
          have hres := ih kw cfg (i + 1) kwt cfgt bst ht
          have hcons : hasEmptyKF (("keyfiles", val) :: rest) = hasEmptyKF rest := by
            rw [hasEmptyKF_cons, hemp2]
            rfl
          rw [hcons]
          exact hres
      · have hck : (check_keyfile dry kw cfg sec key val).2 = some (kw, cfg) := by
          rw [check_keyfile_other dry kw cfg sec key val hkey]
        rw [pass3_opts_cons_step _ _ _ _ _ _ _ _ b kw cfg hcv hck] at hrun
        simp only [Option.map_eq_some'] at hrun
        rcases hrun with ⟨t, ht, hteq⟩
        rcases t with ⟨kwt, cfgt, bst⟩
        cases hteq
        have hres := ih kw cfg (i + 1) kwt cfgt bst ht
        have hcons : hasEmptyKF ((key, val) :: rest) = hasEmptyKF rest := by
          rw [hasEmptyKF_cons]
          simp [hkey]
        rw [hcons]
        exact hres

lemma pass3_opts_crash (dry : Bool) (sec : String) (opts : List (String × String)) :
    ∀ (kw : Kw) (cfg : Config) (i : Nat),
      hasEmptyKF opts = true →
      (kw.map Prod.fst).contains "keyfiles" = false →
      (pass3_opts dry sec kw cfg i opts).2 = none := by
  induction opts with
  | nil =>
    intro kw cfg i h _
    cases h
  | cons p rest ih =>
    intro kw cfg i hkf hout
    rcases p with ⟨key, val⟩
    rcases hcv : (check_value i sec key val).2 with _ | b
    · rw [pass3_opts_cons_cv_none _ _ _ _ _ _ _ _ hcv]
    · by_cases hkey : key = "keyfiles"
      · subst hkey
        by_cases hemp : (pyIsSpace val || val == "") = true
        · have hck : (check_keyfile dry kw cfg sec "keyfiles" val).2 = none := by
            rw [check_keyfile_crash dry kw cfg sec val hemp hout]
          rw [pass3_opts_cons_kf_none _ _ _ _ _ _ _ _ b hcv hck]
        · have hemp2 : (pyIsSpace val || val == "") = false := Bool.eq_false_iff.mpr hemp
          have hck : (check_keyfile dry kw cfg sec "keyfiles" val).2 = some (kw, cfg) := by
            rw [check_keyfile_nonempty dry kw cfg sec val hemp2]
          rw [pass3_opts_cons_step _ _ _ _ _ _ _ _ b kw cfg hcv hck]
          have hrest : hasEmptyKF rest = true := by
            rw [hasEmptyKF_cons, hemp2] at hkf
            simpa using hkf
          simp only [ih kw cfg (i + 1) hrest hout, Option.map_none']
      · have hck : (check_keyfile dry kw cfg sec key val).2 = some (kw, cfg) := by
          rw [check_keyfile_other dry kw cfg sec key val hkey]
        rw [pass3_opts_cons_step _ _ _ _ _ _ _ _ b kw cfg hcv hck]
        have hrest : hasEmptyKF rest = true := by
          rw [hasEmptyKF_cons] at hkf
          have hkb : (key == "keyfiles") = false := by
            rw [Bool.eq_false_iff]
            intro hb
            exact hkey (beq_iff_eq.mp hb)
          rw [hkb] at hkf
          simpa using hkf
        simp only [ih kw cfg (i + 1) hrest hout, Option.map_none']

lemma pass3_opts_oob (dry : Bool) (sec : String) (opts : List (String × String)) :
    ∀ (kw : Kw) (cfg : Config) (i : Nat),
      opts ≠ [] → 7 < i + opts.length →
      (pass3_opts dry sec kw cfg i opts).2 = none := by
  induction opts with
  | nil =>
    intro kw cfg i hne _
    exact absurd rfl hne
  | cons p rest ih =>
    intro kw cfg i _ hbound
    rcases p with ⟨key, val⟩
    by_cases hi : 7 ≤ i
    · have hcv : (check_value i sec key val).2 = none := by
        rw [check_value_oob i sec key val hi]
      rw [pass3_opts_cons_cv_none _ _ _ _ _ _ _ _ hcv]
    · rcases hcv : (check_value i sec key val).2 with _ | b
      · rw [pass3_opts_cons_cv_none _ _ _ _ _ _ _ _ hcv]
      · rcases hck : (check_keyfile dry kw cfg sec key val).2 with _ | ⟨kw2, cfg2⟩
        · rw [pass3_opts_cons_kf_none _ _ _ _ _ _ _ _ b hcv hck]
        · rw [pass3_opts_cons_step _ _ _ _ _ _ _ _ b kw2 cfg2 hcv hck]
          have hrest : rest ≠ [] := by
            intro hcontra
            subst hcontra
            simp only [List.length_cons, List.length_nil] at hbound
            omega
          have hbound2 : 7 < (i + 1) + rest.length := by
            simp only [List.length_cons] at hbound
            omega
          simp only [ih kw2 cfg2 (i + 1) hrest hbound2, Option.map_none']

lemma pass3_nokf (dry : Bool) (secs : List String) :
    ∀ (kw : Kw) (cfg : Config) (kw1 : Kw) (cfg1 : Config) (bs : List Bool),
      (kw.map Prod.fst).contains "keyfiles" = false →
      (pass3 dry kw cfg secs).2 = some (kw1, cfg1, bs) →
      kw1 = kw ∧ cfg1 = cfg := by
  induction secs with
  | nil =>
    intro kw cfg kw1 cfg1 bs _ hrun
    rw [pass3_nil] at hrun
    simp only [Option.some.injEq, Prod.mk.injEq] at hrun
    exact ⟨hrun.1.symm, hrun.2.1.symm⟩
  | cons s rest ih =>
    intro kw cfg kw1 cfg1 bs hkf hrun
    rcases hr : (pass3_opts dry s kw cfg 0 ((lookupSec cfg s).getD [])).2 with _ | ⟨kw2, cfg2, bs2⟩
    · rw [pass3_cons_none _ _ _ _ _ hr] at hrun
      cases hrun
    · rw [pass3_cons_step _ _ _ _ _ _ _ _ hr] at hrun
      simp only [Option.map_eq_some'] at hrun
      rcases hrun with ⟨t, ht, hteq⟩
      rcases t with ⟨kwt, cfgt, bst⟩
      cases hteq
      obtain ⟨h2a, h2b, _⟩ := pass3_opts_nokf dry s _ kw cfg 0 kw2 cfg2 bs2 hkf hr
      rw [h2a, h2b] at ht
      exact ih kw cfg kwt cfgt bst hkf ht

lemma pass3_nokf_crash (dry : Bool) (secs : List String) :
    ∀ (kw : Kw) (cfg : Config) (sec : String) (opts : Opts),
      (kw.map Prod.fst).contains "keyfiles" = false →
      sec ∈ secs → lookupSec cfg sec = some opts → hasEmptyKF opts = true →
      (pass3 dry kw cfg secs).2 = none := by
  induction secs with
  | nil =>
    intro kw cfg sec opts _ hmem _ _
    cases hmem
  | cons s rest ih =>
    intro kw cfg sec opts hkf hmem hlook hkfe
    by_cases hs : sec = s
    · subst hs
      have hcr2 : (pass3_opts dry sec kw cfg 0 ((lookupSec cfg sec).getD [])).2 = none := by
        rw [hlook]
        exact pass3_opts_crash dry sec opts kw cfg 0 hkfe hkf
      rw [pass3_cons_none _ _ _ _ _ hcr2]
    · rcases hr : (pass3_opts dry s kw cfg 0 ((lookupSec cfg s).getD [])).2 with _ | ⟨kw2, cfg2, bs2⟩
      · rw [pass3_cons_none _ _ _ _ _ hr]
      · rw [pass3_cons_step _ _ _ _ _ _ _ _ hr]
        obtain ⟨h2a, h2b, _⟩ := pass3_opts_nokf dry s _ kw cfg 0 kw2 cfg2 bs2 hkf hr
        have hmem2 : sec ∈ rest := by
          rcases List.mem_cons.mp hmem with h | h
          · exact absurd h hs
          · exact h
        rw [h2a, h2b]
        simp only [ih kw cfg sec opts hkf hmem2 hlook hkfe, Option.map_none']

lemma pass3_pops (dry : Bool) (secs : List String) :
    ∀ (kw : Kw) (cfg : Config) (sec : String) (opts : Opts) (kw1 : Kw) (cfg1 : Config)
      (bs : List Bool),
      (pass3 dry kw cfg secs).2 = some (kw1, cfg1, bs) →
      sec ∈ secs → lookupSec cfg sec = some opts → hasEmptyKF opts = true →
      "keyfiles" ∉ kw1.map Prod.fst ∧
      lookupSec cfg1 sec = some (opts.filter (fun p => p.1 != "keyfiles")) := by
  induction secs with
  | nil =>
    intro kw cfg sec opts kw1 cfg1 bs _ hmem
    cases hmem
  | cons s rest ih =>
    intro kw cfg sec opts kw1 cfg1 bs hrun hmem hlook hkfe
    rcases hr : (pass3_opts dry s kw cfg 0 ((lookupSec cfg s).getD [])).2 with _ | ⟨kw2, cfg2, bs2⟩
    · rw [pass3_cons_none _ _ _ _ _ hr] at hrun
      cases hrun
    · rw [pass3_cons_step _ _ _ _ _ _ _ _ hr] at hrun
      simp only [Option.map_eq_some'] at hrun
      rcases hrun with ⟨t, ht, hteq⟩
      rcases t with ⟨kwt, cfgt, bst⟩
      cases hteq
      by_cases hs : sec = s
      · subst hs
        rw [hlook] at hr
        simp only [Option.getD_some] at hr
        obtain ⟨hkw2, hcfg2⟩ := (pass3_opts_state dry sec opts kw cfg 0 kw2 cfg2 bs2 hr).1 hkfe
        rw [hkw2, hcfg2] at ht
        obtain ⟨hkwt, hcfgt⟩ := pass3_nokf dry rest (filterKF kw)
          (popFromSection cfg sec "keyfiles") kwt cfgt bst (filterKF_contains_false kw) ht
        rw [hkwt, hcfgt]
        refine ⟨filterKF_fst_not_mem kw, ?_⟩
        rw [lookupSec_popFromSection, if_pos rfl, hlook]
        rfl
      · have hmem2 : sec ∈ rest := by
          rcases List.mem_cons.mp hmem with h | h
          · exact absurd h hs
          · exact h
        have hst := pass3_opts_state dry s _ kw cfg 0 kw2 cfg2 bs2 hr
        cases hhd : hasEmptyKF ((lookupSec cfg s).getD []) with
        | false =>
          obtain ⟨ha, hb⟩ := hst.2 hhd
          rw [ha, hb] at ht
          exact ih kw cfg sec opts kwt cfgt bst ht hmem2 hlook hkfe
        | true =>
          obtain ⟨ha, hb⟩ := hst.1 hhd
          rw [ha, hb] at ht
          have hlook2 : lookupSec (popFromSection cfg s "keyfiles") sec = some opts := by
            rw [lookupSec_popFromSection, if_neg hs, hlook]
          have hcrash := pass3_nokf_crash dry rest (filterKF kw)
            (popFromSection cfg s "keyfiles") sec opts (filterKF_contains_false kw)
            hmem2 hlook2 hkfe
          rw [hcrash] at ht
          cases ht

lemma pass3_kw_cases (dry : Bool) (secs : List String) :
    ∀ (kw : Kw) (cfg : Config) (kw1 : Kw) (cfg1 : Config) (bs : List Bool),
      (pass3 dry kw cfg secs).2 = some (kw1, cfg1, bs) →
      kw1 = kw ∨ kw1 = filterKF kw := by
  induction secs with
  | nil =>
    intro kw cfg kw1 cfg1 bs hrun
    rw [pass3_nil] at hrun
    simp only [Option.some.injEq, Prod.mk.injEq] at hrun
    exact Or.inl hrun.1.symm
  | cons s rest ih =>
    intro kw cfg kw1 cfg1 bs hrun
    rcases hr : (pass3_opts dry s kw cfg 0 ((lookupSec cfg s).getD [])).2 with _ | ⟨kw2, cfg2, bs2⟩
    · rw [pass3_cons_none _ _ _ _ _ hr] at hrun
      cases hrun
    · rw [pass3_cons_step _ _ _ _ _ _ _ _ hr] at hrun
      simp only [Option.map_eq_some'] at hrun
      rcases hrun with ⟨t, ht, hteq⟩
      rcases t with ⟨kwt, cfgt, bst⟩
      cases hteq
      have hst := pass3_opts_state dry s _ kw cfg 0 kw2 cfg2 bs2 hr
      cases hhd : hasEmptyKF ((lookupSec cfg s).getD []) with
      | false =>
        obtain ⟨ha, hb⟩ := hst.2 hhd
        rw [ha, hb] at ht
        exact ih kw cfg kwt cfgt bst ht
      | true =>
        obtain ⟨ha, hb⟩ := hst.1 hhd
        rw [ha, hb] at ht
        rcases ih (filterKF kw) (popFromSection cfg s "keyfiles") kwt cfgt bst ht with h | h
        · exact Or.inr h
        · rw [filterKF_idem] at h
          exact Or.inr h

lemma pass3_map_fst (dry : Bool) (secs : List String) :
    ∀ (kw : Kw) (cfg : Config) (kw1 : Kw) (cfg1 : Config) (bs : List Bool),
      (pass3 dry kw cfg secs).2 = some (kw1, cfg1, bs) →
      cfg1.map Prod.fst = cfg.map Prod.fst := by
  induction secs with
  | nil =>
    intro kw cfg kw1 cfg1 bs hrun
    rw [pass3_nil] at hrun
    simp only [Option.some.injEq, Prod.mk.injEq] at hrun
    rw [← hrun.2.1]
  | cons s rest ih =>
    intro kw cfg kw1 cfg1 bs hrun
    rcases hr : (pass3_opts dry s kw cfg 0 ((lookupSec cfg s).getD [])).2 with _ | ⟨kw2, cfg2, bs2⟩
    · rw [pass3_cons_none _ _ _ _ _ hr] at hrun
      cases hrun
    · rw [pass3_cons_step _ _ _ _ _ _ _ _ hr] at hrun
      simp only [Option.map_eq_some'] at hrun
      rcases hrun with ⟨t, ht, hteq⟩
      rcases t with ⟨kwt, cfgt, bst⟩
      cases hteq
      have hst := pass3_opts_state dry s _ kw cfg 0 kw2 cfg2 bs2 hr
      cases hhd : hasEmptyKF ((lookupSec cfg s).getD []) with
      | false =>
        obtain ⟨ha, hb⟩ := hst.2 hhd
        rw [ha, hb] at ht
        exact ih kw cfg kwt cfgt bst ht
      | true =>
        obtain ⟨ha, hb⟩ := hst.1 hhd
        rw [ha, hb] at ht
        rw [ih (filterKF kw) (popFromSection cfg s "keyfiles") kwt cfgt bst ht]
        exact popFromSection_map_fst cfg s "keyfiles"

lemma pass3_opts_checks (dry : Bool) (sec : String) (opts : List (String × String)) :
    ∀ (kw : Kw) (cfg : Config) (i : Nat) (kw1 : Kw) (cfg1 : Config) (bs : List Bool)
      (j : Nat) (k v : String) (e : Ev) (b : Bool),
      (pass3_opts dry sec kw cfg i opts).2 = some (kw1, cfg1, bs) →
      opts[j]? = some (k, v) →
      check_value (i + j) sec k v = ([e], some b) →
      e ∈ (pass3_opts dry sec kw cfg i opts).1 ∧ b ∈ bs := by
  induction opts with
  | nil =>
    intro kw cfg i kw1 cfg1 bs j k v e b _ hj _
    cases hj
  | cons p rest ih =>
    intro kw cfg i kw1 cfg1 bs j k v e b hrun hj hcv
    rcases p with ⟨key, val⟩
    rcases hcv0 : (check_value i sec key val).2 with _ | b0
    · rw [pass3_opts_cons_cv_none _ _ _ _ _ _ _ _ hcv0] at hrun
      cases hrun
    · rcases hck : (check_keyfile dry kw cfg sec key val).2 with _ | ⟨kw2, cfg2⟩
      · rw [pass3_opts_cons_kf_none _ _ _ _ _ _ _ _ b0 hcv0 hck] at hrun
        cases hrun
      · rw [pass3_opts_cons_step _ _ _ _ _ _ _ _ b0 kw2 cfg2 hcv0 hck] at hrun
        simp only [Option.map_eq_some'] at hrun
        rcases hrun with ⟨t, ht, hteq⟩
        rcases t with ⟨kwt, cfgt, bst⟩
        cases hteq
        rw [pass3_opts_cons_step _ _ _ _ _ _ _ _ b0 kw2 cfg2 hcv0 hck]
        rcases j with _ | j2
        · simp only [List.getElem?_cons_zero, Option.some.injEq, Prod.mk.injEq] at hj
          rw [Nat.add_zero] at hcv
          rw [← hj.1, ← hj.2] at hcv
          have hev1 : (check_value i sec key val).1 = [e] := by
            rw [hcv]
          have hb : b0 = b := by
            rw [hcv] at hcv0
            exact (Option.some.inj hcv0).symm
          constructor
          · apply List.mem_append.mpr
            apply Or.inl
            apply List.mem_append.mpr
            apply Or.inl
            rw [hev1]
            exact List.mem_singleton.mpr rfl
          · rw [← hb]
            exact List.mem_cons_self b0 bst
        · simp only [List.getElem?_cons_succ] at hj
          have hcv2 : check_value ((i + 1) + j2) sec k v = ([e], some b) := by
            rw [show (i + 1) + j2 = i + (j2 + 1) by omega]
            exact hcv
          have hres := ih kw2 cfg2 (i + 1) kwt cfgt bst j2 k v e b ht hj hcv2
          constructor
          · apply List.mem_append.mpr
            exact Or.inr hres.1
          · exact List.mem_cons_of_mem b0 hres.2

lemma pass3_checks (dry : Bool) (secs : List String) :
    ∀ (kw : Kw) (cfg : Config) (sec : String) (opts : Opts) (kw1 : Kw) (cfg1 : Config)
      (bs : List Bool) (j : Nat) (k v : String) (e : Ev) (b : Bool),
      (pass3 dry kw cfg secs).2 = some (kw1, cfg1, bs) →
      sec ∈ secs → lookupSec cfg sec = some opts →
      opts[j]? = some (k, v) → check_value j sec k v = ([e], some b) →
      e ∈ (pass3 dry kw cfg secs).1 ∧ b ∈ bs := by
  induction secs with
  | nil =>
    intro kw cfg sec opts kw1 cfg1 bs j k v e b _ hmem
    cases hmem
  | cons s rest ih =>
    intro kw cfg sec opts kw1 cfg1 bs j k v e b hrun hmem hlook hj hcv
    rcases hr : (pass3_opts dry s kw cfg 0 ((lookupSec cfg s).getD [])).2 with _ | ⟨kw2, cfg2, bs2⟩
    · rw [pass3_cons_none _ _ _ _ _ hr] at hrun
      cases hrun
    · rw [pass3_cons_step _ _ _ _ _ _ _ _ hr] at hrun
      simp only [Option.map_eq_some'] at hrun
      rcases hrun with ⟨t, ht, hteq⟩
      rcases t with ⟨kwt, cfgt, bst⟩
      cases hteq
      rw [pass3_cons_step _ _ _ _ _ _ _ _ hr]
      by_cases hs : sec = s
      · subst hs
        have hr2 := hr
        rw [hlook] at hr2
        simp only [Option.getD_some] at hr2
        have hcv2 : check_value (0 + j) sec k v = ([e], some b) := by
          rw [Nat.zero_add]
          exact hcv
        have hres := pass3_opts_checks dry sec opts kw cfg 0 kw2 cfg2 bs2 j k v e b hr2 hj hcv2
        constructor
        · apply List.mem_append.mpr
          apply Or.inl
          have hev : (pass3_opts dry sec kw cfg 0 ((lookupSec cfg sec).getD [])).1 =
              (pass3_opts dry sec kw cfg 0 opts).1 := by
            rw [hlook]
            rfl
          rw [hev]
          exact hres.1
        · exact List.mem_append.mpr (Or.inl hres.2)
      · have hmem2 : sec ∈ rest := by
          rcases List.mem_cons.mp hmem with h | h
          · exact absurd h hs
          · exact h
        have hst := pass3_opts_state dry s _ kw cfg 0 kw2 cfg2 bs2 hr
        have hlook2 : lookupSec cfg2 sec = some opts := by
          cases hhd : hasEmptyKF ((lookupSec cfg s).getD []) with
          | false =>
            obtain ⟨_, hb⟩ := hst.2 hhd
            rw [hb, hlook]
          | true =>
            obtain ⟨_, hb⟩ := hst.1 hhd
            rw [hb, lookupSec_popFromSection, if_neg hs, hlook]
        have hres := ih kw2 cfg2 sec opts kwt cfgt bst j k v e b ht hmem2 hlook2 hj hcv
        constructor
        · exact List.mem_append.mpr (Or.inr hres.1)
        · exact List.mem_append.mpr (Or.inr hres.2)

lemma pass3_oob (dry : Bool) (secs : List String) :
    ∀ (kw : Kw) (cfg : Config) (sec : String) (opts : Opts),
      sec ∈ secs → lookupSec cfg sec = some opts → 7 < opts.length →
      (pass3 dry kw cfg secs).2 = none := by
  induction secs with
  | nil =>
    intro kw cfg sec opts hmem
    cases hmem
  | cons s rest ih =>
    intro kw cfg sec opts hmem hlook hlen
    by_cases hs : sec = s
    · subst hs
      have hne : opts ≠ [] := by
        intro hcontra
        subst hcontra
        simp at hlen
      have hcr : (pass3_opts dry sec kw cfg 0 ((lookupSec cfg sec).getD [])).2 = none := by
        rw [hlook]
        simp only [Option.getD_some]
        exact pass3_opts_oob dry sec opts kw cfg 0 hne (by omega)
      rw [pass3_cons_none _ _ _ _ _ hcr]
    · rcases hr : (pass3_opts dry s kw cfg 0 ((lookupSec cfg s).getD [])).2 with _ | ⟨kw2, cfg2, bs2⟩
      · rw [pass3_cons_none _ _ _ _ _ hr]
      · rw [pass3_cons_step _ _ _ _ _ _ _ _ hr]
        have hmem2 : sec ∈ rest := by
          rcases List.mem_cons.mp hmem with h | h
          · exact absurd h hs
          · exact h
        have hst := pass3_opts_state dry s _ kw cfg 0 kw2 cfg2 bs2 hr
        have hlook2 : lookupSec cfg2 sec = some opts := by
          cases hhd : hasEmptyKF ((lookupSec cfg s).getD []) with
          | false =>
            obtain ⟨_, hb⟩ := hst.2 hhd
            rw [hb, hlook]
          | true =>
            obtain ⟨_, hb⟩ := hst.1 hhd
            rw [hb, lookupSec_popFromSection, if_neg hs, hlook]
        simp only [ih kw2 cfg2 sec opts hmem2 hlook2 hlen, Option.map_none']

lemma pass3_opts_total (dry : Bool) (sec : String) (opts : List (String × String)) :
    ∀ (kw : Kw) (cfg : Config) (i : Nat),
      i + opts.length ≤ 7 →
      (opts.map Prod.fst).Nodup →
      (hasEmptyKF opts = true → (kw.map Prod.fst).contains "keyfiles" = true) →
      ∃ kw1 cfg1 bs, (pass3_opts dry sec kw cfg i opts).2 = some (kw1, cfg1, bs) := by
  induction opts with
  | nil =>
    intro kw cfg i _ _ _
    exact ⟨kw, cfg, [], by rw [pass3_opts_nil]⟩
  | cons p rest ih =>
    intro kw cfg i hbound hnd hkf
    rcases p with ⟨key, val⟩
    have hi : i < 7 := by
      simp only [List.length_cons] at hbound
      omega
    obtain ⟨evs, b, hcv⟩ := check_value_isSome i sec key val hi
    have hcv2 : (check_value i sec key val).2 = some b := by
      rw [hcv]
    have hbound2 : (i + 1) + rest.length ≤ 7 := by
      simp only [List.length_cons] at hbound
      omega
    rw [List.map_cons] at hnd
    obtain ⟨hnotin, hnd2⟩ := List.nodup_cons.mp hnd
    by_cases hkey : key = "keyfiles"
    · subst hkey
      by_cases hemp : (pyIsSpace val || val == "") = true
      · have hin : (kw.map Prod.fst).contains "keyfiles" = true := by
          apply hkf
          rw [hasEmptyKF_cons, hemp]
          simp
        have hck2 : (check_keyfile dry kw cfg sec "keyfiles" val).2 =
            some (filterKF kw, popFromSection cfg sec "keyfiles") := by
          rw [check_keyfile_pop dry kw cfg sec val hemp hin]
        have hrestfalse : hasEmptyKF rest = false :=
          hasEmptyKF_eq_false_of_not_mem rest hnotin
        obtain ⟨kw1, cfg1, bs, hrest⟩ := ih (filterKF kw)
          (popFromSection cfg sec "keyfiles") (i + 1) hbound2 hnd2
          (fun hcontra => by rw [hrestfalse] at hcontra; cases hcontra)
        refine ⟨kw1, cfg1, b :: bs, ?_⟩
        rw [pass3_opts_cons_step _ _ _ _ _ _ _ _ b _ _ hcv2 hck2]
        simp only [hrest, Option.map_some']
      · have hemp2 : (pyIsSpace val || val == "") = false := Bool.eq_false_iff.mpr hemp
        have hck2 : (check_keyfile dry kw cfg sec "keyfiles" val).2 = some (kw, cfg) := by
          rw [check_keyfile_nonempty dry kw cfg sec val hemp2]
        obtain ⟨kw1, cfg1, bs, hrest⟩ := ih kw cfg (i + 1) hbound2 hnd2
          (fun hcontra => hkf (by rw [hasEmptyKF_cons, hemp2, hcontra]; rfl))
        refine ⟨kw1, cfg1, b :: bs, ?_⟩
        rw [pass3_opts_cons_step _ _ _ _ _ _ _ _ b _ _ hcv2 hck2]
        simp only [hrest, Option.map_some']
    · have hck2 : (check_keyfile dry kw cfg sec key val).2 = some (kw, cfg) := by
        rw [check_keyfile_other dry kw cfg sec key val hkey]
      have hkb : (key == "keyfiles") = false := by
        rw [Bool.eq_false_iff]
        intro hb2
        exact hkey (beq_iff_eq.mp hb2)
      obtain ⟨kw1, cfg1, bs, hrest⟩ := ih kw cfg (i + 1) hbound2 hnd2
        (fun hcontra => hkf (by rw [hasEmptyKF_cons, hkb, hcontra]; rfl))
      refine ⟨kw1, cfg1, b :: bs, ?_⟩
      rw [pass3_opts_cons_step _ _ _ _ _ _ _ _ b _ _ hcv2 hck2]
      simp only [hrest, Option.map_some']

lemma pass3_total (dry : Bool) (secs : List String) :
    ∀ (kw : Kw) (cfg : Config),
      secs.Nodup →
      (∀ s ∈ secs, ∀ opts, lookupSec cfg s = some opts →
        opts.length ≤ 7 ∧ (opts.map Prod.fst).Nodup) →
      ((kw.map Prod.fst).contains "keyfiles" = true →
        (secs.filter (fun s => hasEmptyKF ((lookupSec cfg s).getD []))).length ≤ 1) →
      ((kw.map Prod.fst).contains "keyfiles" = false →
        (secs.filter (fun s => hasEmptyKF ((lookupSec cfg s).getD []))).length = 0) →
      ∃ kw1 cfg1 bs, (pass3 dry kw cfg secs).2 = some (kw1, cfg1, bs) := by
  induction secs with
  | nil =>
    intro kw cfg _ _ _ _
    exact ⟨kw, cfg, [], by rw [pass3_nil]⟩
  | cons s rest ih =>
    intro kw cfg hnd hopts hb1 hb0
    obtain ⟨hsnot, hndr⟩ := List.nodup_cons.mp hnd
    have hhead : ((lookupSec cfg s).getD []).length ≤ 7 ∧
        (((lookupSec cfg s).getD []).map Prod.fst).Nodup := by
      rcases hl : lookupSec cfg s with _ | o
      · simp
      · simp only [Option.getD_some]
        exact hopts s (List.mem_cons_self s rest) o hl
    have hkfhead : hasEmptyKF ((lookupSec cfg s).getD []) = true →
        (kw.map Prod.fst).contains "keyfiles" = true := by
      intro hh
      by_cases hc : (kw.map Prod.fst).contains "keyfiles" = true
      · exact hc
      · have h0 := hb0 (Bool.eq_false_iff.mpr hc)
        rw [List.filter_cons, if_pos hh] at h0
        simp at h0
    obtain ⟨kw2, cfg2, bs2, hr⟩ := pass3_opts_total dry s ((lookupSec cfg s).getD [])
      kw cfg 0 (by rw [Nat.zero_add]; exact hhead.1) hhead.2 hkfhead
    have hst := pass3_opts_state dry s _ kw cfg 0 kw2 cfg2 bs2 hr
    cases hhd : hasEmptyKF ((lookupSec cfg s).getD []) with
    | false =>
      obtain ⟨ha, hb⟩ := hst.2 hhd
      obtain ⟨kw1, cfg1, bs1, hrest⟩ := ih kw cfg hndr
        (fun s2 hs2 opts hl => hopts s2 (List.mem_cons_of_mem s hs2) opts hl)
        (fun hc => by
          have h2 := hb1 hc
          rw [List.filter_cons, if_neg (by simp [hhd])] at h2
          exact h2)
        (fun hc => by
          have h2 := hb0 hc
          rw [List.filter_cons, if_neg (by simp [hhd])] at h2
          exact h2)
      refine ⟨kw1, cfg1, bs2 ++ bs1, ?_⟩
      rw [pass3_cons_step _ _ _ _ _ _ _ _ hr, ha, hb]
      simp only [hrest, Option.map_some']
    | true =>
      obtain ⟨ha, hb⟩ := hst.1 hhd
      have hin := hkfhead hhd
      have hcount := hb1 hin
      rw [List.filter_cons, if_pos hhd] at hcount
      simp only [List.length_cons] at hcount
      have hzero : (rest.filter
          (fun s2 => hasEmptyKF ((lookupSec cfg s2).getD []))).length = 0 := by omega
      have hpres : ∀ s2 ∈ rest,
          lookupSec (popFromSection cfg s "keyfiles") s2 = lookupSec cfg s2 := by
        intro s2 hs2
        rw [lookupSec_popFromSection, if_neg (by intro hcontra; exact hsnot (hcontra ▸ hs2))]
      have hfeq : rest.filter
            (fun s2 => hasEmptyKF ((lookupSec (popFromSection cfg s "keyfiles") s2).getD [])) =
          rest.filter (fun s2 => hasEmptyKF ((lookupSec cfg s2).getD [])) :=
        List.filter_congr (fun s2 hs2 => by rw [hpres s2 hs2])
      obtain ⟨kw1, cfg1, bs1, hrest⟩ := ih (filterKF kw) (popFromSection cfg s "keyfiles") hndr
        (fun s2 hs2 opts hl => hopts s2 (List.mem_cons_of_mem s hs2) opts
          (by rw [← hpres s2 hs2]; exact hl))
        (fun hc => by rw [filterKF_contains_false] at hc; cases hc)
        (fun _ => by rw [hfeq]; exact hzero)
      refine ⟨kw1, cfg1, bs2 ++ bs1, ?_⟩
      rw [pass3_cons_step _ _ _ _ _ _ _ _ hr, ha, hb]
      simp only [hrest, Option.map_some']

lemma existence_pass_events (sections : List String) :
    ∀ container, ∀ e ∈ (existence_pass sections container).2, isPass1Ev e = true := by
  intro container
  induction container with
  | nil =>
    intro e he
    cases he
  | cons item rest ih =>
    intro e he
    simp only [existence_pass] at he
    split at he
    · exact ih e he
    · split at he
      · exact ih e he
      · rcases List.mem_cons.mp he with h | h
        · rw [h]
          rfl
        · exact ih e h

lemma completeness_pass_events (L : Nat) (cfg : Config) :
    ∀ secs, ∀ e ∈ (completeness_pass L cfg secs).2, isPass2Ev e = true := by
  intro secs
  induction secs with
  | nil =>
    intro e he
    cases he
  | cons s rest ih =>
    intro e he
    simp only [completeness_pass] at he
    split at he
    · exact ih e he
    · split at he
      · rcases List.mem_cons.mp he with h | h
        · rw [h]
          rfl
        · exact ih e h
      · exact ih e he

lemma terminate_events (dry is_err : Bool) :
    ∀ e ∈ (terminate_by_condition dry is_err).1, isTermEv e = true := by
  cases dry <;> cases is_err <;> decide

lemma shutdown_mem_terminate (dry is_err : Bool) :
    (Ev.shutdown ∈ (terminate_by_condition dry is_err).1) ↔ is_err = true := by
  cases dry <;> cases is_err <;> decide

lemma acc_events (keys : List String) (b : Bool) :
    ∀ e ∈ (if b then ([] : List Ev) else Ev.acceptedHeader :: keys.map Ev.acceptedOption),
      isAccEv e = true := by
  intro e he
  cases b with
  | true => cases he
  | false =>
    rcases List.mem_cons.mp he with h | h
    · rw [h]
      rfl
    · rcases List.mem_map.mp h with ⟨k2, _, hk⟩
      rw [← hk]
      rfl

lemma completeness_pass_count_not_mem (L : Nat) (cfg : Config) (sec : String) :
    ∀ secs, sec ∉ secs →
      List.count (Ev.errMissingOptions sec) (completeness_pass L cfg secs).2 = 0 := by
  intro secs
  induction secs with
  | nil =>
    intro _
    rfl
  | cons s rest ih =>
    intro hnm
    have hs : ¬ sec = s := fun h => hnm (h ▸ List.mem_cons_self s rest)
    have hrest : sec ∉ rest := fun h => hnm (List.mem_cons_of_mem s h)
    simp only [completeness_pass]
    split
    · exact ih hrest
    · split
      · rw [List.count_cons, ih hrest]
        have hbf : (Ev.errMissingOptions s == Ev.errMissingOptions sec) = false := by
          rw [Bool.eq_false_iff]
          intro hb
          cases beq_iff_eq.mp hb
          exact hs rfl
        rw [hbf]
        simp
      · exact ih hrest

lemma completeness_pass_count (L : Nat) (cfg : Config) (sec : String) :
    ∀ secs, secs.Nodup → sec ∈ secs →
      List.count (Ev.errMissingOptions sec) (completeness_pass L cfg secs).2 =
        if ignore_sections sec = false ∧ L ≠ ((lookupSec cfg sec).getD []).length
        then 1 else 0 := by
  intro secs
  induction secs with
  | nil =>
    intro _ hmem
    cases hmem
  | cons s rest ih =>
    intro hnd hmem
    obtain ⟨hsnot, hndr⟩ := List.nodup_cons.mp hnd
    by_cases hs : sec = s
    · subst hs
      have hrest0 := completeness_pass_count_not_mem L cfg sec rest hsnot
      simp only [completeness_pass]
      split
      · rename_i hig
        rw [hrest0, if_neg (fun hcontra => by rw [hig] at hcontra; cases hcontra.1)]
      · rename_i hig
        have hig2 : ignore_sections sec = false := by
          rw [Bool.eq_false_iff]
          exact hig
        split
        · rename_i hmis
          have hne : L ≠ ((lookupSec cfg sec).getD []).length := by
            intro hcontra
            rw [hcontra] at hmis
            simp at hmis
          rw [List.count_cons, hrest0,
            if_pos (show (Ev.errMissingOptions sec == Ev.errMissingOptions sec) = true by simp),
            if_pos (show ignore_sections sec = false ∧
              L ≠ ((lookupSec cfg sec).getD []).length from ⟨hig2, hne⟩)]
        · rename_i hmis
          have heq : L = ((lookupSec cfg sec).getD []).length := by
            by_contra hcontra
            exact hmis (by simpa using hcontra)
          rw [hrest0, if_neg (fun hcontra => hcontra.2 heq)]
    · have hmem2 : sec ∈ rest := by
        rcases List.mem_cons.mp hmem with h | h
        · exact absurd h hs
        · exact h
      simp only [completeness_pass]
      split
      · exact ih hndr hmem2
      · split
        · rw [List.count_cons, ih hndr hmem2]
          have : (Ev.errMissingOptions s == Ev.errMissingOptions sec) = false := by
            rw [Bool.eq_false_iff]
            intro hb
            have := beq_iff_eq.mp hb
            cases this
            exact hs rfl
          rw [this]
          simp
        · exact ih hndr hmem2

lemma completeness_pass_isEmpty (L : Nat) (cfg : Config) :
    ∀ secs, (completeness_pass L cfg secs).1.isEmpty =
      !(secs.any (fun s => !ignore_sections s && L != ((lookupSec cfg s).getD []).length)) := by
  intro secs
  induction secs with
  | nil => rfl
  | cons s rest ih =>
    simp only [completeness_pass, List.any_cons]
    split
    · rename_i hig
      rw [ih, hig]
      simp
    · rename_i hig
      have hig2 : ignore_sections s = false := Bool.eq_false_iff.mpr hig
      split
      · rename_i hmis
        rw [hig2, hmis]
        simp
      · rename_i hmis
        have hmis2 : (L != ((lookupSec cfg s).getD []).length) = false := by
          rw [Bool.eq_false_iff]
          exact hmis
        rw [ih, hig2, hmis2]
        simp

lemma lookupSec_some_mem_fst (cfg : Config) (sec : String) (opts : Opts)
    (h : lookupSec cfg sec = some opts) : sec ∈ cfg.map Prod.fst := by
  unfold lookupSec at h
  rcases hf : cfg.find? (fun p => p.1 == sec) with _ | p
  · rw [hf] at h
    cases h
  · have hmem := List.mem_of_find?_eq_some hf
    have hpred := List.find?_some hf
    have : p.1 = sec := beq_iff_eq.mp hpred
    rw [← this]
    exact List.mem_map.mpr ⟨p, hmem, rfl⟩

lemma cic_crash (dry : Bool) (container : List String) (st : St)
    (h : (pass3 dry st.keywords st.config (st.config.map Prod.fst)).2 = none) :
    config_integrity_check dry container st =
      ((existence_pass (st.config.map Prod.fst) container).2 ++
        (completeness_pass (st.keywords.map Prod.fst).length st.config
          (st.config.map Prod.fst)).2 ++
        (if (completeness_pass (st.keywords.map Prod.fst).length st.config
            (st.config.map Prod.fst)).1.isEmpty then []
          else Ev.acceptedHeader :: (st.keywords.map Prod.fst).map Ev.acceptedOption) ++
        (pass3 dry st.keywords st.config (st.config.map Prod.fst)).1, none) := by
  simp only [config_integrity_check]
  split
  · rfl
  · rename_i kw1 cfg1 bs heq
    rw [h] at heq
    cases heq

lemma cic_step (dry : Bool) (container : List String) (st : St)
    (kw1 : Kw) (cfg1 : Config) (bs : List Bool)
    (h : (pass3 dry st.keywords st.config (st.config.map Prod.fst)).2 = some (kw1, cfg1, bs)) :
    config_integrity_check dry container st =
      ((existence_pass (st.config.map Prod.fst) container).2 ++
        (completeness_pass (st.keywords.map Prod.fst).length st.config
          (st.config.map Prod.fst)).2 ++
        (if (completeness_pass (st.keywords.map Prod.fst).length st.config
            (st.config.map Prod.fst)).1.isEmpty then []
          else Ev.acceptedHeader :: (st.keywords.map Prod.fst).map Ev.acceptedOption) ++
        (pass3 dry st.keywords st.config (st.config.map Prod.fst)).1 ++
        (terminate_by_condition dry
          (((existence_pass (st.config.map Prod.fst) container).1 ++
            (completeness_pass (st.keywords.map Prod.fst).length st.config
              (st.config.map Prod.fst)).1 ++ bs).contains true)).1,
       some (⟨kw1, cfg1⟩,
        (existence_pass (st.config.map Prod.fst) container).1 ++
          (completeness_pass (st.keywords.map Prod.fst).length st.config
            (st.config.map Prod.fst)).1 ++ bs)) := by
  simp only [config_integrity_check]
  split
  · rename_i heq
    rw [h] at heq
    cases heq
  · rename_i kw2 cfg2 bs2 heq
    rw [h] at heq
    cases heq
    rfl

lemma mainRun_crash (dry dm : Bool) (container : List String) (st : St)
    (h : (config_integrity_check dry container st).2 = none) :
    mainRun dry dm container st =
      ((config_integrity_check dry container st).1, RunOutcome.crashedValidation) := by
  simp only [mainRun]
  split
  · rfl
  · rename_i st2 errs heq
    rw [h] at heq
    cases heq

lemma mainRun_err (dry dm : Bool) (container : List String) (st : St) (st2 : St)
    (errs : List Bool)
    (h : (config_integrity_check dry container st).2 = some (st2, errs))
    (he : errs.contains true = true) :
    mainRun dry dm container st =
      ((config_integrity_check dry container st).1, RunOutcome.exitedError) := by
  simp only [mainRun]
  split
  · rename_i heq
    rw [h] at heq
    cases heq
  · rename_i st3 errs3 heq
    rw [h] at heq
    cases heq
    rw [if_pos he]

lemma mainRun_show (dry dm : Bool) (container : List String) (st : St) (st2 : St)
    (errs : List Bool)
    (h : (config_integrity_check dry container st).2 = some (st2, errs))
    (he : errs.contains true = false)
    (hshow : (container.headD "" == "show") = true) :
    mainRun dry dm container st =
      ((config_integrity_check dry container st).1 ++ Ev.infoShowHeader ::
        ((st2.config.map Prod.fst).filter (fun s => !ignore_sections s)).map Ev.showSection,
       RunOutcome.exitedShow) := by
  simp only [mainRun]
  split
  · rename_i heq
    rw [h] at heq
    cases heq
  · rename_i st3 errs3 heq
    rw [h] at heq
    cases heq
    rw [if_neg (show ¬ (errs.contains true = true) from fun hcontra => by
      rw [he] at hcontra; cases hcontra), if_pos hshow]

lemma mainRun_outcomes (dry dm : Bool) (container : List String) (st : St) (st2 : St)
    (errs : List Bool)
    (h : (config_integrity_check dry container st).2 = some (st2, errs))
    (he : errs.contains true = false) :
    (mainRun dry dm container st).2 ≠ RunOutcome.exitedError ∧
    (mainRun dry dm container st).2 ≠ RunOutcome.crashedValidation := by
  simp only [mainRun]
  split
  · rename_i heq
    rw [h] at heq
    cases heq
  · rename_i st3 errs3 heq
    rw [h] at heq
    cases heq
    rw [if_neg (show ¬ (errs.contains true = true) from fun hcontra => by
      rw [he] at hcontra; cases hcontra)]
    constructor
    · split
      · simp
      · split
        · split <;> simp
        · split
          · split <;> simp
          · split <;> simp
    · split
      · simp
      · split
        · split <;> simp
        · split
          · split <;> simp
          · split <;> simp

lemma cic_no_exec (dry : Bool) (container : List String) (st : St) (c : List String) :
    Ev.exec c ∉ (config_integrity_check dry container st).1 := by
  have h1 := not_mem_of_classifier (existence_pass_events (st.config.map Prod.fst) container)
    (show isPass1Ev (Ev.exec c) = false from rfl)
  have h2 := not_mem_of_classifier
    (completeness_pass_events (st.keywords.map Prod.fst).length st.config
      (st.config.map Prod.fst))
    (show isPass2Ev (Ev.exec c) = false from rfl)
  have h3 := not_mem_of_classifier
    (acc_events (st.keywords.map Prod.fst)
      ((completeness_pass (st.keywords.map Prod.fst).length st.config
        (st.config.map Prod.fst)).1.isEmpty))
    (show isAccEv (Ev.exec c) = false from rfl)
  have h4 := not_mem_of_classifier
    (pass3_events dry (st.config.map Prod.fst) st.keywords st.config)
    (show isPass3Ev (Ev.exec c) = false from rfl)
  rcases hr : (pass3 dry st.keywords st.config (st.config.map Prod.fst)).2
    with _ | ⟨kw1, cfg1, bs⟩
  · rw [cic_crash dry container st hr]
    intro hmem
    rcases List.mem_append.mp hmem with h | h
    · rcases List.mem_append.mp h with h5 | h5
      · rcases List.mem_append.mp h5 with h6 | h6
        · exact h1 h6
        · exact h2 h6
      · exact h3 h5
    · exact h4 h
  · rw [cic_step dry container st kw1 cfg1 bs hr]
    have h5 := not_mem_of_classifier
      (terminate_events dry
        (((existence_pass (st.config.map Prod.fst) container).1 ++
          (completeness_pass (st.keywords.map Prod.fst).length st.config
            (st.config.map Prod.fst)).1 ++ bs).contains true))
      (show isTermEv (Ev.exec c) = false from rfl)
    intro hmem
    rcases List.mem_append.mp hmem with h | h
    · rcases List.mem_append.mp h with h6 | h6
      · rcases List.mem_append.mp h6 with h7 | h7
        · rcases List.mem_append.mp h7 with h8 | h8
          · exact h1 h8
          · exact h2 h8
        · exact h3 h7
      · exact h4 h6
    · exact h5 h

lemma cic_shutdown_crash (dry : Bool) (container : List String) (st : St)
    (hr : (pass3 dry st.keywords st.config (st.config.map Prod.fst)).2 = none) :
    Ev.shutdown ∉ (config_integrity_check dry container st).1 := by
  have h1 := not_mem_of_classifier (existence_pass_events (st.config.map Prod.fst) container)
    (show isPass1Ev Ev.shutdown = false from rfl)
  have h2 := not_mem_of_classifier
    (completeness_pass_events (st.keywords.map Prod.fst).length st.config
      (st.config.map Prod.fst))
    (show isPass2Ev Ev.shutdown = false from rfl)
  have h3 := not_mem_of_classifier
    (acc_events (st.keywords.map Prod.fst)
      ((completeness_pass (st.keywords.map Prod.fst).length st.config
        (st.config.map Prod.fst)).1.isEmpty))
    (show isAccEv Ev.shutdown = false from rfl)
  have h4 := not_mem_of_classifier
    (pass3_events dry (st.config.map Prod.fst) st.keywords st.config)
    (show isPass3Ev Ev.shutdown = false from rfl)
  rw [cic_crash dry container st hr]
  intro hmem
  rcases List.mem_append.mp hmem with h | h
  · rcases List.mem_append.mp h with h5 | h5
    · rcases List.mem_append.mp h5 with h6 | h6
      · exact h1 h6
      · exact h2 h6
    · exact h3 h5
  · exact h4 h

lemma cic_shutdown_iff (dry : Bool) (container : List String) (st : St)
    (kw1 : Kw) (cfg1 : Config) (bs : List Bool)
    (hr : (pass3 dry st.keywords st.config (st.config.map Prod.fst)).2 = some (kw1, cfg1, bs)) :
    (Ev.shutdown ∈ (config_integrity_check dry container st).1) ↔
      (((existence_pass (st.config.map Prod.fst) container).1 ++
        (completeness_pass (st.keywords.map Prod.fst).length st.config
          (st.config.map Prod.fst)).1 ++ bs).contains true) = true := by
  have h1 := not_mem_of_classifier (existence_pass_events (st.config.map Prod.fst) container)
    (show isPass1Ev Ev.shutdown = false from rfl)
  have h2 := not_mem_of_classifier
    (completeness_pass_events (st.keywords.map Prod.fst).length st.config
      (st.config.map Prod.fst))
    (show isPass2Ev Ev.shutdown = false from rfl)
  have h3 := not_mem_of_classifier
    (acc_events (st.keywords.map Prod.fst)
      ((completeness_pass (st.keywords.map Prod.fst).length st.config
        (st.config.map Prod.fst)).1.isEmpty))
    (show isAccEv Ev.shutdown = false from rfl)
  have h4 := not_mem_of_classifier
    (pass3_events dry (st.config.map Prod.fst) st.keywords st.config)
    (show isPass3Ev Ev.shutdown = false from rfl)
  rw [cic_step dry container st kw1 cfg1 bs hr]
  constructor
  · intro hmem
    rcases List.mem_append.mp hmem with h | h
    · exfalso
      rcases List.mem_append.mp h with h6 | h6
      · rcases List.mem_append.mp h6 with h7 | h7
        · rcases List.mem_append.mp h7 with h8 | h8
          · exact h1 h8
          · exact h2 h8
        · exact h3 h7
      · exact h4 h6
    · exact (shutdown_mem_terminate dry _).mp h
  · intro he
    exact List.mem_append.mpr (Or.inr ((shutdown_mem_terminate dry _).mpr he))

lemma mount_volume_run (kw : Kw) (cfg : Config) (sec : String) (vals : List String)
    (hsec : exclude_reserved.contains sec = false)
    (hv : get_config_values kw cfg sec = some vals) :
    mount_volume false kw cfg sec = ([Ev.exec (mount_command kw vals)], some ()) := by
  have hsec2 : sec ∉ exclude_reserved := by simpa using hsec
  simp [mount_volume, hv, hsec2, drylog]

lemma acceptedHeader_not_mem_map (keys : List String) :
    Ev.acceptedHeader ∉ keys.map Ev.acceptedOption := by
  intro h
  rcases List.mem_map.mp h with ⟨k, _, hk⟩
  cases hk

lemma acceptedHeader_count (keys : List String) (b : Bool) :
    List.count Ev.acceptedHeader
      (if b then ([] : List Ev) else Ev.acceptedHeader :: keys.map Ev.acceptedOption) =
      if b then 0 else 1 := by
  cases b
  · simp only [Bool.false_eq_true, if_false, List.count_cons,
      List.count_eq_zero.mpr (acceptedHeader_not_mem_map keys)]
    simp
  · simp

/-- The shape at the canonical `keyfiles` position (`(str, '')` in the
source) accepts every string value: `type(val) in (str, '')` is true for
any `str` value. -/
lemma check_value_keyfiles_pos (sec v : String) :
    check_value 2 sec "keyfiles" v = ([], some false) := by
  have h2 : expected_values[2]? = some (EV.tup [""] true) := rfl
  simp [check_value, h2]

/-- C3: for every non-reserved profile with all remaining table options
present, the mount command vector is the fixed preamble
`veracrypt /q /b` followed by, in option-table order, each option's flag
immediately followed by the profile's value; nothing else is emitted
(no empty-string placeholders), and the command is handed to the child
process. -/
theorem C3_mount_command_shape (kw : Kw) (cfg : Config) (sec : String) (opts : Opts)
    (f : String × String → String)
    (hsec : exclude_reserved.contains sec = false)
    (hopts : lookupSec cfg sec = some opts)
    (hf : ∀ p ∈ kw, lookupOpt opts p.1 = some (f p)) :
    get_config_values kw cfg sec = some (kw.map f) ∧
    mount_command kw (kw.map f) = ["veracrypt", "/q", "/b"] ++ kw.flatMap (fun p => [p.2, f p]) ∧
    (mount_command kw (kw.map f)).length = 3 + 2 * kw.length ∧
    mount_volume false kw cfg sec = ([Ev.exec (mount_command kw (kw.map f))], some ()) := by
  have hsec' : sec ∉ exclude_reserved := by simpa using hsec
  have hv : get_config_values kw cfg sec = some (kw.map f) := by
    simp [get_config_values, hopts, collectValues_eq opts f kw hf]
  refine ⟨hv, ?_, ?_, ?_⟩
  · rw [mount_command_map, base_command_eq]
  · rw [mount_command_map, List.length_append, flatMap_pairs_length kw f]
    rfl
  · simp [mount_volume, hv, hsec', drylog]

theorem C3_mount_command_shape_witness :
    (exclude_reserved.contains "Cont1" = false ∧
     lookupSec [("Cont1", goodOpts)] "Cont1" = some goodOpts ∧
     ∀ p ∈ keywords0, lookupOpt goodOpts p.1 =
       some ((fun q : String × String => (lookupOpt goodOpts q.1).getD "") p)) ∧
    (get_config_values keywords0 [("Cont1", goodOpts)] "Cont1" =
       some (keywords0.map (fun q : String × String => (lookupOpt goodOpts q.1).getD "")) ∧
     mount_command keywords0
       (keywords0.map (fun q : String × String => (lookupOpt goodOpts q.1).getD "")) =
       ["veracrypt", "/q", "/b"] ++
         keywords0.flatMap (fun p => [p.2, (lookupOpt goodOpts p.1).getD ""]) ∧
     (mount_command keywords0
       (keywords0.map (fun q : String × String => (lookupOpt goodOpts q.1).getD ""))).length =
       3 + 2 * keywords0.length ∧
     mount_volume false keywords0 [("Cont1", goodOpts)] "Cont1" =
       ([Ev.exec (mount_command keywords0
         (keywords0.map (fun q : String × String => (lookupOpt goodOpts q.1).getD "")))],
        some ())) :=
  ⟨⟨by decide, by decide, by decide⟩,
   C3_mount_command_shape keywords0 [("Cont1", goodOpts)] "Cont1" goodOpts
     (fun q : String × String => (lookupOpt goodOpts q.1).getD "")
     (by decide) (by decide) (by decide)⟩

/-- C8: in dry-run mode every constructed command (mount and dismount)
is traced through the debug channel in both its human-readable joined
form and its raw vector form, and the child process is never executed. -/
theorem C8_dry_run_traces (kw : Kw) (cfg : Config) (sec : String) (vals : List String) (dl : String)
    (hsec : exclude_reserved.contains sec = false)
    (hvals : get_config_values kw cfg sec = some vals)
    (hdl : (lookupSec cfg sec).bind (fun o => lookupOpt o "driveletter") = some dl) :
    (mount_volume true kw cfg sec =
      ([Ev.debugBanner sec, Ev.debugJoined (joinSpace (mount_command kw vals) ++ "\n"),
        Ev.debugRaw (mount_command kw vals)], some ()) ∧
     ∀ c, Ev.exec c ∉ (mount_volume true kw cfg sec).1) ∧
    (dismount_volume true cfg sec =
      ([Ev.debugBanner sec, Ev.debugJoined (joinSpace (base_command ++ [dismount_arg, dl])),
        Ev.debugRaw (base_command ++ [dismount_arg, dl])], some ()) ∧
     ∀ c, Ev.exec c ∉ (dismount_volume true cfg sec).1) := by
  have hsec' : sec ∉ exclude_reserved := by simpa using hsec
  have hm : mount_volume true kw cfg sec =
      ([Ev.debugBanner sec, Ev.debugJoined (joinSpace (mount_command kw vals) ++ "\n"),
        Ev.debugRaw (mount_command kw vals)], some ()) := by
    simp [mount_volume, hvals, hsec', drylog]
  have hd : dismount_volume true cfg sec =
      ([Ev.debugBanner sec, Ev.debugJoined (joinSpace (base_command ++ [dismount_arg, dl])),
        Ev.debugRaw (base_command ++ [dismount_arg, dl])], some ()) := by
    simp [dismount_volume, hdl, hsec', drylog]
  refine ⟨⟨hm, ?_⟩, ⟨hd, ?_⟩⟩
  · intro c
    rw [hm]
    simp
  · intro c
    rw [hd]
    simp

theorem C8_dry_run_traces_witness :
    (exclude_reserved.contains "Cont1" = false ∧
     get_config_values keywords0 [("Cont1", goodOpts)] "Cont1" =
       some ["vol1", "no", "kf1", "X", "yes", "no", "no"] ∧
     (lookupSec [("Cont1", goodOpts)] "Cont1").bind (fun o => lookupOpt o "driveletter") =
       some "X") ∧
    ((mount_volume true keywords0 [("Cont1", goodOpts)] "Cont1" =
      ([Ev.debugBanner "Cont1",
        Ev.debugJoined (joinSpace (mount_command keywords0
          ["vol1", "no", "kf1", "X", "yes", "no", "no"]) ++ "\n"),
        Ev.debugRaw (mount_command keywords0 ["vol1", "no", "kf1", "X", "yes", "no", "no"])],
       some ()) ∧
      ∀ c, Ev.exec c ∉ (mount_volume true keywords0 [("Cont1", goodOpts)] "Cont1").1) ∧
     (dismount_volume true [("Cont1", goodOpts)] "Cont1" =
      ([Ev.debugBanner "Cont1", Ev.debugJoined (joinSpace (base_command ++ [dismount_arg, "X"])),
        Ev.debugRaw (base_command ++ [dismount_arg, "X"])], some ()) ∧
      ∀ c, Ev.exec c ∉ (dismount_volume true [("Cont1", goodOpts)] "Cont1").1)) :=
  ⟨⟨by decide, by decide, by decide⟩,
   C8_dry_run_traces keywords0 [("Cont1", goodOpts)] "Cont1"
     ["vol1", "no", "kf1", "X", "yes", "no", "no"] "X" (by decide) (by decide) (by decide)⟩


/-- C4: the code at the failing input.  Requesting a mount for a
reserved name does not silently skip: `mount_volume` fetches the
profile's option values before its reserved-name guard, so it dies with
an uncaught KeyError (`none`), while `dismount_volume`, which guards
first, does skip silently. -/
theorem C4_mount_reserved_raises :
    mount_volume false keywords0 cfgC4 "all" = ([], none) ∧
    mount_volume true keywords0 cfgC4 "all" = ([], none) ∧
    mount_volume false keywords0 cfgC4 "show" = ([], none) ∧
    get_config_values keywords0 cfgC4 "all" = none ∧
    dismount_volume false cfgC4 "all" = ([], some ()) ∧
    dismount_volume false cfgC4 "Path" = ([], some ()) := by decide


theorem C1_counterexample :
    Ev.errMissingOptions "A" ∈ (config_integrity_check false ["A"] stC1).1 ∧
    (config_integrity_check false ["A"] stC1).2 = none ∧
    Ev.shutdown ∉ (config_integrity_check false ["A"] stC1).1 := by decide


theorem C2_counterexample :
    Ev.errEmptyOption "A" "keyfiles" ∈ (config_integrity_check false ["A"] stC2).1 ∧
    Ev.shutdown ∈ (config_integrity_check false ["A"] stC2).1 := by decide


theorem C5_counterexample :
    ignore_sections "Path" = true ∧
    Ev.errEmptyOption "Path" "path" ∈ (config_integrity_check false ["Cont1"] stC5).1 ∧
    Ev.shutdown ∈ (config_integrity_check false ["Cont1"] stC5).1 := by decide



theorem C6_counterexample :
    (optsC6.map Prod.fst).contains "securedesktop" = false ∧
    List.count (Ev.errMissingOptions "A") (config_integrity_check false ["A"] stC6).1 = 0 ∧
    Ev.shutdown ∉ (config_integrity_check false ["A"] stC6).1 := by decide


theorem C7_counterexample :
    "show" ∈ ["Cont1", "show"] ∧
    (mainRun false false ["Cont1", "show"] stC7).2 ≠ RunOutcome.exitedShow ∧
    Ev.exec goodCmd ∈ (mainRun false false ["Cont1", "show"] stC7).1 ∧
    Ev.infoShowHeader ∉ (mainRun false false ["Cont1", "show"] stC7).1 := by decide

/-- C10: the value-shape pass selects each option's expected shape by
position in the fixed seven-entry `expected_values` list; any section
with more than seven options makes the pass index out of range, an
uncaught failure (`none`), so the run never reaches the shutdown
notice / exit-1 path of `terminate_by_condition`. -/
theorem C10_oversized_section_crashes (dry : Bool) (container : List String) (st : St)
    (sec : String) (opts : Opts)
    (hlook : lookupSec st.config sec = some opts)
    (hlen : 7 < opts.length) :
    expected_values.length = 7 ∧
    (config_integrity_check dry container st).2 = none ∧
    Ev.shutdown ∉ (config_integrity_check dry container st).1 := by
  have hmem := lookupSec_some_mem_fst st.config sec opts hlook
  have hr := pass3_oob dry (st.config.map Prod.fst) st.keywords st.config sec opts
    hmem hlook hlen
  refine ⟨rfl, ?_, cic_shutdown_crash dry container st hr⟩
  rw [cic_crash dry container st hr]

def stC10 : St := ⟨keywords0, [("A", goodOpts ++ [("extra", "x")])]⟩

theorem C10_oversized_section_crashes_witness :
    (lookupSec stC10.config "A" = some (goodOpts ++ [("extra", "x")]) ∧
     7 < (goodOpts ++ [("extra", "x")]).length) ∧
    (expected_values.length = 7 ∧
     (config_integrity_check false ["A"] stC10).2 = none ∧
     Ev.shutdown ∉ (config_integrity_check false ["A"] stC10).1) :=
  ⟨⟨by decide, by decide⟩,
   C10_oversized_section_crashes false ["A"] stC10 "A" (goodOpts ++ [("extra", "x")])
     (by decide) (by decide)⟩

/-- C5 (amended): the value-shape pass is applied to every section of
the config, the reserved ones included: when the run completes, a
reserved section's option that fails its positional shape check has its
error printed, its error flag recorded, and the flag forces the
shutdown notice. -/
theorem C5_reserved_sections_shape_checked (dry : Bool) (container : List String)
    (st st2 : St) (errs : List Bool) (sec : String) (opts : Opts) (j : Nat)
    (k v : String) (e : Ev)
    (_hres : ignore_sections sec = true)
    (hlook : lookupSec st.config sec = some opts)
    (hj : opts[j]? = some (k, v))
    (hcv : check_value j sec k v = ([e], some true))
    (hrun : (config_integrity_check dry container st).2 = some (st2, errs)) :
    e ∈ (config_integrity_check dry container st).1 ∧
    errs.contains true = true ∧
    Ev.shutdown ∈ (config_integrity_check dry container st).1 := by
  rcases hr : (pass3 dry st.keywords st.config (st.config.map Prod.fst)).2
    with _ | ⟨kw1, cfg1, bs⟩
  · rw [cic_crash dry container st hr] at hrun
    cases hrun
  · have hc := cic_step dry container st kw1 cfg1 bs hr
    rw [hc] at hrun
    simp only [Option.some.injEq, Prod.mk.injEq] at hrun
    obtain ⟨_, herrs⟩ := hrun
    have hmem := lookupSec_some_mem_fst st.config sec opts hlook
    have hchk := pass3_checks dry (st.config.map Prod.fst) st.keywords st.config sec opts
      kw1 cfg1 bs j k v e true hr hmem hlook hj hcv
    have hcontains : errs.contains true = true := by
      rw [← herrs]
      exact List.elem_iff.mpr (List.mem_append.mpr (Or.inr hchk.2))
    refine ⟨?_, hcontains, ?_⟩
    · rw [hc]
      exact List.mem_append.mpr (Or.inl (List.mem_append.mpr (Or.inr hchk.1)))
    · apply (cic_shutdown_iff dry container st kw1 cfg1 bs hr).mpr
      rw [herrs]
      exact hcontains

theorem C5_reserved_sections_shape_checked_witness :
    (ignore_sections "Path" = true ∧
     lookupSec stC5.config "Path" = some [("path", "")] ∧
     ([("path", "")] : Opts)[0]? = some ("path", "") ∧
     check_value 0 "Path" "path" "" = ([Ev.errEmptyOption "Path" "path"], some true) ∧
     (config_integrity_check false ["Cont1"] stC5).2 =
       some (⟨keywords0, stC5.config⟩, [true, false, false, false, false, false, false, false]) ∧
     Ev.errEmptyOption "Path" "path" ∈ (config_integrity_check false ["Cont1"] stC5).1) ∧
    (Ev.errEmptyOption "Path" "path" ∈ (config_integrity_check false ["Cont1"] stC5).1 ∧
     ([true, false, false, false, false, false, false, false] : List Bool).contains true = true ∧
     Ev.shutdown ∈ (config_integrity_check false ["Cont1"] stC5).1) :=
  ⟨⟨by decide, by decide, by decide, by decide, by decide, by decide⟩,
   C5_reserved_sections_shape_checked false ["Cont1"] stC5 ⟨keywords0, stC5.config⟩
     [true, false, false, false, false, false, false, false] "Path" [("path", "")] 0
     "path" "" (Ev.errEmptyOption "Path" "path")
     (by decide) (by decide) (by decide) (by decide) (by decide)⟩

/-- C1 (amended): on every run where the value-shape pass cannot die
(every section has at most seven options with distinct keys, and at
most one section has an empty or whitespace-only keyfiles value), all
three validation passes run to completion, and the program prints the
shutdown notice and exits with status 1 exactly when at least one error
flag was collected across the passes; with no error flag set the run
proceeds past validation. -/
theorem C1_validator_shutdown_iff (dry dm : Bool) (container : List String) (st : St)
    (hkw : st.keywords = keywords0)
    (hnd : (st.config.map Prod.fst).Nodup)
    (hopts : ∀ s ∈ st.config.map Prod.fst,
      ((lookupSec st.config s).getD []).length ≤ 7 ∧
      (((lookupSec st.config s).getD []).map Prod.fst).Nodup)
    (hkf1 : ((st.config.map Prod.fst).filter
      (fun s => hasEmptyKF ((lookupSec st.config s).getD []))).length ≤ 1) :
    ∃ st2 errs, (config_integrity_check dry container st).2 = some (st2, errs) ∧
      ((Ev.shutdown ∈ (config_integrity_check dry container st).1) ↔
        errs.contains true = true) ∧
      ((mainRun dry dm container st).2 = RunOutcome.exitedError ↔
        errs.contains true = true) ∧
      (mainRun dry dm container st).2 ≠ RunOutcome.crashedValidation := by
  have hopts2 : ∀ s ∈ st.config.map Prod.fst, ∀ opts, lookupSec st.config s = some opts →
      opts.length ≤ 7 ∧ (opts.map Prod.fst).Nodup := by
    intro s hs opts hl
    have h2 := hopts s hs
    rw [hl] at h2
    simpa using h2
  have hcontains : (st.keywords.map Prod.fst).contains "keyfiles" = true := by
    rw [hkw]
    decide
  obtain ⟨kw1, cfg1, bs, hr⟩ := pass3_total dry (st.config.map Prod.fst) st.keywords st.config
    hnd hopts2 (fun _ => hkf1) (fun hc => by rw [hcontains] at hc; cases hc)
  have hc := cic_step dry container st kw1 cfg1 bs hr
  refine ⟨⟨kw1, cfg1⟩,
    (existence_pass (st.config.map Prod.fst) container).1 ++
      (completeness_pass (st.keywords.map Prod.fst).length st.config
        (st.config.map Prod.fst)).1 ++ bs,
    by rw [hc], cic_shutdown_iff dry container st kw1 cfg1 bs hr, ?_, ?_⟩
  · cases hcon : ((existence_pass (st.config.map Prod.fst) container).1 ++
        (completeness_pass (st.keywords.map Prod.fst).length st.config
          (st.config.map Prod.fst)).1 ++ bs).contains true with
    | true =>
      rw [mainRun_err dry dm container st ⟨kw1, cfg1⟩ _ (by rw [hc]) hcon]
      simp
    | false =>
      have hout := mainRun_outcomes dry dm container st ⟨kw1, cfg1⟩ _ (by rw [hc]) hcon
      constructor
      · intro hcontra
        exact absurd hcontra hout.1
      · intro hcontra
        cases hcontra
  · cases hcon : ((existence_pass (st.config.map Prod.fst) container).1 ++
        (completeness_pass (st.keywords.map Prod.fst).length st.config
          (st.config.map Prod.fst)).1 ++ bs).contains true with
    | true =>
      rw [mainRun_err dry dm container st ⟨kw1, cfg1⟩ _ (by rw [hc]) hcon]
      simp
    | false =>
      exact (mainRun_outcomes dry dm container st ⟨kw1, cfg1⟩ _ (by rw [hc]) hcon).2

theorem C1_validator_shutdown_iff_witness :
    (stC7.keywords = keywords0 ∧
     (stC7.config.map Prod.fst).Nodup ∧
     (∀ s ∈ stC7.config.map Prod.fst,
       ((lookupSec stC7.config s).getD []).length ≤ 7 ∧
       (((lookupSec stC7.config s).getD []).map Prod.fst).Nodup) ∧
     ((stC7.config.map Prod.fst).filter
       (fun s => hasEmptyKF ((lookupSec stC7.config s).getD []))).length ≤ 1) ∧
    (∃ st2 errs, (config_integrity_check false ["Cont1"] stC7).2 = some (st2, errs) ∧
      ((Ev.shutdown ∈ (config_integrity_check false ["Cont1"] stC7).1) ↔
        errs.contains true = true) ∧
      ((mainRun false false ["Cont1"] stC7).2 = RunOutcome.exitedError ↔
        errs.contains true = true) ∧
      (mainRun false false ["Cont1"] stC7).2 ≠ RunOutcome.crashedValidation) :=
  ⟨⟨by decide, by decide, by decide, by decide⟩,
   C1_validator_shutdown_iff false false ["Cont1"] stC7
     (by decide) (by decide) (by decide) (by decide)⟩

/-- C6 (amended): the completeness pass flags a non-reserved profile
exactly when its option-key COUNT differs from the canonical count of
seven (a profile missing canonical keys but holding seven keys in total
is not flagged), and it prints the accepted-option guidance block
exactly once iff some non-reserved profile has a count mismatch. -/
theorem C6_missing_options_count (dry : Bool) (container : List String) (st : St) (sec : String)
    (hkw : st.keywords = keywords0)
    (hnd : (st.config.map Prod.fst).Nodup)
    (hmem : sec ∈ st.config.map Prod.fst)
    (hres : ignore_sections sec = false) :
    List.count (Ev.errMissingOptions sec) (config_integrity_check dry container st).1 =
      (if 7 ≠ ((lookupSec st.config sec).getD []).length then 1 else 0) ∧
    List.count Ev.acceptedHeader (config_integrity_check dry container st).1 =
      (if (st.config.map Prod.fst).any
        (fun s => !ignore_sections s && 7 != ((lookupSec st.config s).getD []).length)
       then 1 else 0) := by
  have hL : (st.keywords.map Prod.fst).length = 7 := by
    rw [hkw]
    rfl
  have hm2 : List.count (Ev.errMissingOptions sec)
      (completeness_pass 7 st.config (st.config.map Prod.fst)).2 =
      (if 7 ≠ ((lookupSec st.config sec).getD []).length then 1 else 0) := by
    rw [completeness_pass_count 7 st.config sec (st.config.map Prod.fst) hnd hmem]
    by_cases hlen : (7 : Nat) ≠ ((lookupSec st.config sec).getD []).length
    · rw [if_pos ⟨hres, hlen⟩, if_pos hlen]
    · rw [if_neg (fun hcontra => hlen hcontra.2), if_neg hlen]
  have hacc : List.count Ev.acceptedHeader
      (if (completeness_pass 7 st.config (st.config.map Prod.fst)).1.isEmpty
        then ([] : List Ev)
        else Ev.acceptedHeader :: (st.keywords.map Prod.fst).map Ev.acceptedOption) =
      (if (st.config.map Prod.fst).any
        (fun s => !ignore_sections s && 7 != ((lookupSec st.config s).getD []).length)
       then 1 else 0) := by
    rw [acceptedHeader_count, completeness_pass_isEmpty]
    cases hany : (st.config.map Prod.fst).any
        (fun s => !ignore_sections s && 7 != ((lookupSec st.config s).getD []).length) <;>
      simp
  rcases hr : (pass3 dry st.keywords st.config (st.config.map Prod.fst)).2
    with _ | ⟨kw1, cfg1, bs⟩
  · rw [cic_crash dry container st hr, hL]
    constructor
    · simp only [List.count_append]
      rw [hm2,
        count_zero_of_classifier (existence_pass_events (st.config.map Prod.fst) container)
          (show isPass1Ev (Ev.errMissingOptions sec) = false from rfl),
        count_zero_of_classifier
          (acc_events (st.keywords.map Prod.fst)
            ((completeness_pass 7 st.config (st.config.map Prod.fst)).1.isEmpty))
          (show isAccEv (Ev.errMissingOptions sec) = false from rfl),
        count_zero_of_classifier
          (pass3_events dry (st.config.map Prod.fst) st.keywords st.config)
          (show isPass3Ev (Ev.errMissingOptions sec) = false from rfl)]
      simp
    · simp only [List.count_append]
      rw [hacc,
        count_zero_of_classifier (existence_pass_events (st.config.map Prod.fst) container)
          (show isPass1Ev Ev.acceptedHeader = false from rfl),
        count_zero_of_classifier
          (completeness_pass_events 7 st.config (st.config.map Prod.fst))
          (show isPass2Ev Ev.acceptedHeader = false from rfl),
        count_zero_of_classifier
          (pass3_events dry (st.config.map Prod.fst) st.keywords st.config)
          (show isPass3Ev Ev.acceptedHeader = false from rfl)]
      simp
  · rw [cic_step dry container st kw1 cfg1 bs hr, hL]
    constructor
    · simp only [List.count_append]
      rw [hm2,
        count_zero_of_classifier (existence_pass_events (st.config.map Prod.fst) container)
          (show isPass1Ev (Ev.errMissingOptions sec) = false from rfl),
        count_zero_of_classifier
          (acc_events (st.keywords.map Prod.fst)
            ((completeness_pass 7 st.config (st.config.map Prod.fst)).1.isEmpty))
          (show isAccEv (Ev.errMissingOptions sec) = false from rfl),
        count_zero_of_classifier
          (pass3_events dry (st.config.map Prod.fst) st.keywords st.config)
          (show isPass3Ev (Ev.errMissingOptions sec) = false from rfl),
        count_zero_of_classifier
          (terminate_events dry
            (((existence_pass (st.config.map Prod.fst) container).1 ++
              (completeness_pass 7 st.config (st.config.map Prod.fst)).1 ++
              bs).contains true))
          (show isTermEv (Ev.errMissingOptions sec) = false from rfl)]
      simp
    · simp only [List.count_append]
      rw [hacc,
        count_zero_of_classifier (existence_pass_events (st.config.map Prod.fst) container)
          (show isPass1Ev Ev.acceptedHeader = false from rfl),
        count_zero_of_classifier
          (completeness_pass_events 7 st.config (st.config.map Prod.fst))
          (show isPass2Ev Ev.acceptedHeader = false from rfl),
        count_zero_of_classifier
          (pass3_events dry (st.config.map Prod.fst) st.keywords st.config)
          (show isPass3Ev Ev.acceptedHeader = false from rfl),
        count_zero_of_classifier
          (terminate_events dry
            (((existence_pass (st.config.map Prod.fst) container).1 ++
              (completeness_pass 7 st.config (st.config.map Prod.fst)).1 ++
              bs).contains true))
          (show isTermEv Ev.acceptedHeader = false from rfl)]
      simp

theorem C6_missing_options_count_witness :
    (stC6.keywords = keywords0 ∧
     (stC6.config.map Prod.fst).Nodup ∧
     "A" ∈ stC6.config.map Prod.fst ∧
     ignore_sections "A" = false) ∧
    (List.count (Ev.errMissingOptions "A") (config_integrity_check false ["A"] stC6).1 =
      (if 7 ≠ ((lookupSec stC6.config "A").getD []).length then 1 else 0) ∧
     List.count Ev.acceptedHeader (config_integrity_check false ["A"] stC6).1 =
      (if (stC6.config.map Prod.fst).any
        (fun s => !ignore_sections s && 7 != ((lookupSec stC6.config s).getD []).length)
       then 1 else 0)) :=
  ⟨⟨by decide, by decide, by decide, by decide⟩,
   C6_missing_options_count false ["A"] stC6 "A" (by decide) (by decide) (by decide) (by decide)⟩

/-- C7 (amended): only the FIRST target being the `show` verb triggers
the listing: in that case the program never executes the external
binary and never reaches the dispatch logic; when validation completes
with no error it lists exactly the non-reserved section names in config
order and exits (status 0). -/
theorem C7_show_first_target (dry dm : Bool) (container : List String) (st : St)
    (hshow : (container.headD "" == "show") = true) :
    (∀ c, Ev.exec c ∉ (mainRun dry dm container st).1) ∧
    (mainRun dry dm container st).2 ≠ RunOutcome.completed ∧
    (mainRun dry dm container st).2 ≠ RunOutcome.crashedDispatch ∧
    (∀ st2 errs, (config_integrity_check dry container st).2 = some (st2, errs) →
      errs.contains true = false →
      mainRun dry dm container st =
        ((config_integrity_check dry container st).1 ++ Ev.infoShowHeader ::
          ((st.config.map Prod.fst).filter (fun s => !ignore_sections s)).map Ev.showSection,
         RunOutcome.exitedShow)) := by
  have hnoexec2 : ∀ c cfgl, Ev.exec c ∉ Ev.infoShowHeader ::
      (cfgl : List String).map Ev.showSection := by
    intro c cfgl hmem2
    rcases List.mem_cons.mp hmem2 with h | h
    · cases h
    · rcases List.mem_map.mp h with ⟨s2, _, hs2⟩
      cases hs2
  rcases hr : (pass3 dry st.keywords st.config (st.config.map Prod.fst)).2
    with _ | ⟨kw1, cfg1, bs⟩
  · have hnone : (config_integrity_check dry container st).2 = none := by
      rw [cic_crash dry container st hr]
    rw [mainRun_crash dry dm container st hnone]
    refine ⟨fun c => cic_no_exec dry container st c, by simp, by simp, ?_⟩
    intro st2 errs heq
    rw [hnone] at heq
    cases heq
  · have hc := cic_step dry container st kw1 cfg1 bs hr
    have hsome : (config_integrity_check dry container st).2 =
        some (⟨kw1, cfg1⟩,
          (existence_pass (st.config.map Prod.fst) container).1 ++
            (completeness_pass (st.keywords.map Prod.fst).length st.config
              (st.config.map Prod.fst)).1 ++ bs) := by
      rw [hc]
    have hmap : cfg1.map Prod.fst = st.config.map Prod.fst :=
      pass3_map_fst dry (st.config.map Prod.fst) st.keywords st.config kw1 cfg1 bs hr
    cases hcon : ((existence_pass (st.config.map Prod.fst) container).1 ++
        (completeness_pass (st.keywords.map Prod.fst).length st.config
          (st.config.map Prod.fst)).1 ++ bs).contains true with
    | true =>
      rw [mainRun_err dry dm container st ⟨kw1, cfg1⟩ _ hsome hcon]
      refine ⟨fun c => cic_no_exec dry container st c, by simp, by simp, ?_⟩
      intro st2 errs heq he
      rw [hsome] at heq
      simp only [Option.some.injEq, Prod.mk.injEq] at heq
      rw [← heq.2] at he
      rw [hcon] at he
      cases he
    | false =>
      have hm := mainRun_show dry dm container st ⟨kw1, cfg1⟩ _ hsome hcon hshow
      rw [hm]
      refine ⟨?_, by simp, by simp, ?_⟩
      · intro c hmem
        rcases List.mem_append.mp hmem with h | h
        · exact cic_no_exec dry container st c h
        · exact hnoexec2 c _ (by
            rw [show (⟨kw1, cfg1⟩ : St).config = cfg1 from rfl, hmap] at h
            exact h)
      · intro st2 errs heq _
        rw [show (⟨kw1, cfg1⟩ : St).config = cfg1 from rfl, hmap]

theorem C7_show_first_target_witness :
    ((["show"].headD "" == "show") = true ∧
     (config_integrity_check false ["show"] stC7).2 =
       some (⟨keywords0, stC7.config⟩, [false, false, false, false, false, false, false]) ∧
     ([false, false, false, false, false, false, false] : List Bool).contains true = false) ∧
    ((∀ c, Ev.exec c ∉ (mainRun false false ["show"] stC7).1) ∧
     (mainRun false false ["show"] stC7).2 ≠ RunOutcome.completed ∧
     (mainRun false false ["show"] stC7).2 ≠ RunOutcome.crashedDispatch ∧
     (∀ st2 errs, (config_integrity_check false ["show"] stC7).2 = some (st2, errs) →
       errs.contains true = false →
       mainRun false false ["show"] stC7 =
         ((config_integrity_check false ["show"] stC7).1 ++ Ev.infoShowHeader ::
           ((stC7.config.map Prod.fst).filter (fun s => !ignore_sections s)).map Ev.showSection,
          RunOutcome.exitedShow))) :=
  ⟨⟨by decide, by decide, by decide⟩,
   C7_show_first_target false false ["show"] stC7 (by decide)⟩

/-- C2 (amended): for a profile whose `keyfiles` option sits at its
canonical position 2 with an empty or whitespace-only value, a
completed validation run accepts that option (no error flag, no error
message from its check), removes `keyfiles` from the profile and from
the shared keyword table, and a mount command subsequently built for
that profile contains neither the `/k` flag nor a value for it, while
the remaining (flag, value) pairs appear in canonical table order. -/
theorem C2_empty_keyfiles_dropped (dry : Bool) (container : List String) (st st2 : St)
    (errs : List Bool) (sec : String) (opts : Opts) (v : String)
    (hkw : st.keywords = keywords0)
    (hlook : lookupSec st.config sec = some opts)
    (hv : opts[2]? = some ("keyfiles", v))
    (hemp : (pyIsSpace v || v == "") = true)
    (hsec : exclude_reserved.contains sec = false)
    (hrun : (config_integrity_check dry container st).2 = some (st2, errs)) :
    check_value 2 sec "keyfiles" v = ([], some false) ∧
    st2.keywords = filterKF keywords0 ∧
    "keyfiles" ∉ st2.keywords.map Prod.fst ∧
    lookupSec st2.config sec = some (opts.filter (fun p => p.1 != "keyfiles")) ∧
    "keyfiles" ∉ (opts.filter (fun p => p.1 != "keyfiles")).map Prod.fst ∧
    (∀ vals, get_config_values st2.keywords st2.config sec = some vals →
      mount_volume false st2.keywords st2.config sec =
        ([Ev.exec (mount_command st2.keywords vals)], some ())) ∧
    (∀ v1 v2 v3 v4 v5 v6 : String,
      mount_command (filterKF keywords0) [v1, v2, v3, v4, v5, v6] =
        ["veracrypt", "/q", "/b", "/v", v1, "/tryemptypass", v2, "/l", v3,
         "/nowaitdlg", v4, "/h", v5, "/secureDesktop", v6]) := by
  have hkfe : hasEmptyKF opts = true := by
    apply List.any_eq_true.mpr
    exact ⟨("keyfiles", v), List.getElem?_mem hv, by simp [hemp]⟩
  rcases hr : (pass3 dry st.keywords st.config (st.config.map Prod.fst)).2
    with _ | ⟨kw1, cfg1, bs⟩
  · rw [cic_crash dry container st hr] at hrun
    cases hrun
  · have hc := cic_step dry container st kw1 cfg1 bs hr
    rw [hc] at hrun
    simp only [Option.some.injEq, Prod.mk.injEq] at hrun
    obtain ⟨hst2, _⟩ := hrun
    have hmem := lookupSec_some_mem_fst st.config sec opts hlook
    have hpops := pass3_pops dry (st.config.map Prod.fst) st.keywords st.config sec opts
      kw1 cfg1 bs hr hmem hlook hkfe
    have hkw1 : kw1 = filterKF keywords0 := by
      rcases pass3_kw_cases dry (st.config.map Prod.fst) st.keywords st.config
        kw1 cfg1 bs hr with h | h
      · exfalso
        apply hpops.1
        rw [h, hkw]
        decide
      · rw [h, hkw]
    have hst2k : st2.keywords = kw1 := by
      rw [← hst2]
    have hst2c : st2.config = cfg1 := by
      rw [← hst2]
    refine ⟨check_value_keyfiles_pos sec v, ?_, ?_, ?_, ?_, ?_, ?_⟩
    · rw [hst2k, hkw1]
    · rw [hst2k, hkw1]
      exact filterKF_fst_not_mem keywords0
    · rw [hst2c]
      exact hpops.2
    · exact filterKF_fst_not_mem opts
    · intro vals hvals
      exact mount_volume_run st2.keywords st2.config sec vals hsec hvals
    · intro v1 v2 v3 v4 v5 v6
      rfl

theorem C2_empty_keyfiles_dropped_witness :
    (stC2w.keywords = keywords0 ∧
     lookupSec stC2w.config "Cont2" = some kfEmptyOpts ∧
     kfEmptyOpts[2]? = some ("keyfiles", "") ∧
     (pyIsSpace "" || "" == "") = true ∧
     exclude_reserved.contains "Cont2" = false ∧
     (config_integrity_check false ["Cont2"] stC2w).2 =
       some (stC2wAfter, [false, false, false, false, false, false, false])) ∧
    (check_value 2 "Cont2" "keyfiles" "" = ([], some false) ∧
     stC2wAfter.keywords = filterKF keywords0 ∧
     "keyfiles" ∉ stC2wAfter.keywords.map Prod.fst ∧
     lookupSec stC2wAfter.config "Cont2" =
       some (kfEmptyOpts.filter (fun p => p.1 != "keyfiles")) ∧
     "keyfiles" ∉ (kfEmptyOpts.filter (fun p => p.1 != "keyfiles")).map Prod.fst ∧
     (∀ vals, get_config_values stC2wAfter.keywords stC2wAfter.config "Cont2" = some vals →
       mount_volume false stC2wAfter.keywords stC2wAfter.config "Cont2" =
         ([Ev.exec (mount_command stC2wAfter.keywords vals)], some ())) ∧
     (∀ v1 v2 v3 v4 v5 v6 : String,
       mount_command (filterKF keywords0) [v1, v2, v3, v4, v5, v6] =
         ["veracrypt", "/q", "/b", "/v", v1, "/tryemptypass", v2, "/l", v3,
          "/nowaitdlg", v4, "/h", v5, "/secureDesktop", v6])) :=
  ⟨⟨by decide, by decide, by decide, by decide, by decide, by decide⟩,
   C2_empty_keyfiles_dropped false ["Cont2"] stC2w stC2wAfter
     [false, false, false, false, false, false, false] "Cont2" kfEmptyOpts ""
     (by decide) (by decide) (by decide) (by decide) (by decide) (by decide)⟩

/-- C9: the keyfiles drop mutates the single keyword table shared by
all profiles: after a completed validation run in which any profile had
an empty or whitespace-only keyfiles value, the keyword table has lost
the `keyfiles`/`/k` entry, so EVERY mount command built afterwards in
the same run — for any profile, including ones whose keyfiles value is
non-empty — pairs only the six remaining flags with values and never
emits `/k`. -/
theorem C9_shared_keyword_table (dry : Bool) (container : List String) (st st2 : St)
    (errs : List Bool) (sec : String) (opts : Opts)
    (hkw : st.keywords = keywords0)
    (hlook : lookupSec st.config sec = some opts)
    (hkfe : hasEmptyKF opts = true)
    (hrun : (config_integrity_check dry container st).2 = some (st2, errs)) :
    st2.keywords = filterKF keywords0 ∧
    st2.keywords.map Prod.fst =
      ["volume", "tryemptypass", "driveletter", "nowaitdlg", "savehistory", "securedesktop"] ∧
    st2.keywords.map Prod.snd =
      ["/v", "/tryemptypass", "/l", "/nowaitdlg", "/h", "/secureDesktop"] ∧
    "/k" ∉ st2.keywords.map Prod.snd ∧
    (∀ sec2 vals, exclude_reserved.contains sec2 = false →
      get_config_values st2.keywords st2.config sec2 = some vals →
      mount_volume false st2.keywords st2.config sec2 =
        ([Ev.exec (mount_command st2.keywords vals)], some ()) ∧
      mount_command st2.keywords vals =
        ["veracrypt", "/q", "/b"] ++
          (st2.keywords.zip vals).flatMap (fun p => [p.1.2, p.2])) := by
  rcases hr : (pass3 dry st.keywords st.config (st.config.map Prod.fst)).2
    with _ | ⟨kw1, cfg1, bs⟩
  · rw [cic_crash dry container st hr] at hrun
    cases hrun
  · have hc := cic_step dry container st kw1 cfg1 bs hr
    rw [hc] at hrun
    simp only [Option.some.injEq, Prod.mk.injEq] at hrun
    obtain ⟨hst2, _⟩ := hrun
    have hmem := lookupSec_some_mem_fst st.config sec opts hlook
    have hpops := pass3_pops dry (st.config.map Prod.fst) st.keywords st.config sec opts
      kw1 cfg1 bs hr hmem hlook hkfe
    have hkw1 : kw1 = filterKF keywords0 := by
      rcases pass3_kw_cases dry (st.config.map Prod.fst) st.keywords st.config
        kw1 cfg1 bs hr with h | h
      · exfalso
        apply hpops.1
        rw [h, hkw]
        decide
      · rw [h, hkw]
    have hst2k : st2.keywords = kw1 := by
      rw [← hst2]
    refine ⟨by rw [hst2k, hkw1], by rw [hst2k, hkw1]; rfl, by rw [hst2k, hkw1]; rfl,
      by rw [hst2k, hkw1]; decide, ?_⟩
    intro sec2 vals hsec2 hvals
    exact ⟨mount_volume_run st2.keywords st2.config sec2 vals hsec2 hvals, rfl⟩

theorem C9_shared_keyword_table_witness :
    (stC9w.keywords = keywords0 ∧
     lookupSec stC9w.config "Cont2" = some kfEmptyOpts ∧
     hasEmptyKF kfEmptyOpts = true ∧
     (config_integrity_check false ["all"] stC9w).2 =
       some (stC9wAfter,
         [false, false, false, false, false, false, false,
          false, false, false, false, false, false, false])) ∧
    (stC9wAfter.keywords = filterKF keywords0 ∧
     stC9wAfter.keywords.map Prod.fst =
       ["volume", "tryemptypass", "driveletter", "nowaitdlg", "savehistory", "securedesktop"] ∧
     stC9wAfter.keywords.map Prod.snd =
       ["/v", "/tryemptypass", "/l", "/nowaitdlg", "/h", "/secureDesktop"] ∧
     "/k" ∉ stC9wAfter.keywords.map Prod.snd ∧
     (∀ sec2 vals, exclude_reserved.contains sec2 = false →
       get_config_values stC9wAfter.keywords stC9wAfter.config sec2 = some vals →
       mount_volume false stC9wAfter.keywords stC9wAfter.config sec2 =
         ([Ev.exec (mount_command stC9wAfter.keywords vals)], some ()) ∧
       mount_command stC9wAfter.keywords vals =
         ["veracrypt", "/q", "/b"] ++
           (stC9wAfter.keywords.zip vals).flatMap (fun p => [p.1.2, p.2]))) :=
  ⟨⟨by decide, by decide, by decide, by decide⟩,
   C9_shared_keyword_table false ["all"] stC9w stC9wAfter
     [false, false, false, false, false, false, false,
      false, false, false, false, false, false, false] "Cont2" kfEmptyOpts
     (by decide) (by decide) (by decide) (by decide)⟩

end VCM
